import Mathlib

/-!
# student-portal: credential authority, interceptors and secret hasher

A shallow embedding of the Go sources

* `internal/errors/errors.go`
* `internal/config/config.go`
* `internal/constants/constants.go`
* `internal/utils/jwt.go`
* `internal/utils/password.go`
* `internal/middleware/auth_middleware.go`
* `internal/models/user.go`
* `internal/repository/user_repository.go`
* `internal/service/user_service.go`
* `internal/utils/kafka.go`
* `internal/utils/response.go`
* `internal/utils/pagination.go`
* `cmd/api/main.go`

Conventions of the embedding.

* A Go `string` is a Lean `String`; a `[]byte` that is not text is a list of naturals.
* A `time.Time` is the wall-clock instant in nanoseconds since the Unix epoch, a
  `time.Duration` is a number of nanoseconds; both are integers.
* Every read of the clock (`time.Now()`) is an explicit argument of the function that
  performs it, in the order in which the source performs the reads.
* A function returning `(T, error)` returns `Except _ T`.
* HTTP handlers return the list of effects they perform, in order; a method of the
  service returns its result together with the list of its effects.
* A goroutine is an effect of the function that starts it; what the goroutine does is a
  function of its own, run separately.  A closure handed to a goroutine is a value that
  records which method it calls and what it captured.
* An interface implemented outside the core (the repository, the Kafka writer, the
  database pool) is a record of functions: what each method answers in the run at hand.
* The two third-party packages the sources call into, `github.com/golang-jwt/jwt/v5` and
  `golang.org/x/crypto/bcrypt`, are not part of the repository.  Their control flow
  (segment splitting, header inspection, key lookup, claim validation, hash formatting) is
  written out; their byte-level primitives (JSON and base64url coding, HMAC, the bcrypt
  key schedule) are fields of a record that every definition takes as an argument.
-/

namespace StudentPortal

/-! ## `internal/errors/errors.go` -/

/-- AppError carries the HTTP status code and the message of an application error. -/
structure AppError where
  Code : Nat
  Message : String
  deriving DecidableEq, Repr

def ErrBadRequest : AppError := ⟨400, "Invalid request payload or parameters"⟩
def ErrUnauthorized : AppError := ⟨401, "Authentication required"⟩
def ErrForbidden : AppError := ⟨403, "Insufficient permissions"⟩
def ErrNotFound : AppError := ⟨404, "Resource not found"⟩
def ErrConflict : AppError := ⟨409, "Resource already exists"⟩
def ErrInternalServerError : AppError := ⟨500, "An unexpected error occurred"⟩
def ErrInvalidCredentials : AppError := ⟨401, "Invalid email or password"⟩
def ErrEmailExists : AppError := ⟨409, "Email already exists"⟩

/-- A Go value of interface type error: an application error, or an error of any other
dynamic type (only its text is kept). -/
inductive GoError where
  | app (e : AppError)
  | other (msg : String)
  deriving DecidableEq, Repr

deriving instance DecidableEq for Except

/-! ## Time -/

/-- Wall-clock instant, nanoseconds since the Unix epoch. -/
abbrev Time := Int

/-- Elapsed time in nanoseconds. -/
abbrev Duration := Int

/-- The constant time.Second. -/
def Second : Duration := 1000000000

/-- The constant jwt.TimePrecision, left at its default. -/
def TimePrecision : Duration := Second

/-- The function jwt.NewNumericDate: the instant rounded down to a multiple of
TimePrecision (Go's Time.Truncate rounds down, also for instants before the epoch). -/
def NewNumericDate (t : Time) : Time := t - t % TimePrecision

/-! ## `internal/config/config.go` -/

/-- The fields of config.Config that the credential authority reads. -/
structure Config where
  JWTSecret : String
  JWTExpiry : Duration
  deriving DecidableEq, Repr

/-! ## `strings.Split` and `strings.SplitN` for a one-character separator -/

/-- Cut a character list at every occurrence of the separator. -/
def splitChars (sep : Char) : List Char → List (List Char)
  | [] => [[]]
  | c :: cs =>
    if c = sep then [] :: splitChars sep cs
    else
      match splitChars sep cs with
      | [] => [[c]]
      | p :: ps => (c :: p) :: ps

/-- The call strings.Split(s, sep) for a separator of one character. -/
def Split (s : String) (sep : Char) : List String :=
  (splitChars sep s.data).map String.mk

/-- Cut a character list at the first n - 1 occurrences of the separator. -/
def splitNChars (sep : Char) : List Char → Nat → List (List Char)
  | _, 0 => []
  | cs, 1 => [cs]
  | [], _ + 2 => [[]]
  | c :: cs, n + 2 =>
    if c = sep then [] :: splitNChars sep cs (n + 1)
    else
      match splitNChars sep cs (n + 2) with
      | [] => [[c]]
      | p :: ps => (c :: p) :: ps

/-- The call strings.SplitN(s, sep, n) for a separator of one character and n ≥ 0. -/
def SplitN (s : String) (sep : Char) (n : Nat) : List String :=
  (splitNChars sep s.data n).map String.mk

/-! ## `github.com/golang-jwt/jwt/v5` -/

/-- Raw bytes. -/
abbrev Bytes := List Nat

/-- The signing methods the package registers. -/
inductive SigningMethod where
  | HS256 | HS384 | HS512
  | RS256 | RS384 | RS512
  | PS256 | PS384 | PS512
  | ES256 | ES384 | ES512
  | EdDSA
  | none
  deriving DecidableEq, Repr

/-- The method's name as written in the header entry alg. -/
def SigningMethod.Alg : SigningMethod → String
  | .HS256 => "HS256" | .HS384 => "HS384" | .HS512 => "HS512"
  | .RS256 => "RS256" | .RS384 => "RS384" | .RS512 => "RS512"
  | .PS256 => "PS256" | .PS384 => "PS384" | .PS512 => "PS512"
  | .ES256 => "ES256" | .ES384 => "ES384" | .ES512 => "ES512"
  | .EdDSA => "EdDSA"
  | .none => "none"

/-- The methods registered under their names (the package's map signingMethods). -/
def signingMethods : List SigningMethod :=
  [.HS256, .HS384, .HS512, .RS256, .RS384, .RS512, .PS256, .PS384, .PS512,
    .ES256, .ES384, .ES512, .EdDSA, .none]

/-- The function jwt.GetSigningMethod: look a method up by name. -/
def GetSigningMethod (alg : String) : Option SigningMethod :=
  signingMethods.find? (fun m => m.Alg = alg)

/-- Whether the method value has dynamic type *jwt.SigningMethodHMAC. -/
def SigningMethod.isHMAC : SigningMethod → Bool
  | .HS256 | .HS384 | .HS512 => true
  | _ => false

/-- The type jwt.RegisteredClaims; a numeric date that is absent is none. -/
structure RegisteredClaims where
  Issuer : String
  Subject : String
  Audience : List String
  ExpiresAt : Option Time
  NotBefore : Option Time
  IssuedAt : Option Time
  ID : String
  deriving DecidableEq, Repr

/-- UserClaims defines the claims structure for the JWT. -/
structure UserClaims where
  UserID : Int
  Email : String
  Role : String
  Registered : RegisteredClaims
  deriving DecidableEq, Repr

/-- The JOSE header of a token: its string-valued entries alg and typ, none when the
entry is missing or is not a string. -/
structure Header where
  alg : Option String
  typ : Option String
  deriving DecidableEq, Repr

/-- The type jwt.Token. -/
structure Token where
  Raw : String
  Method : SigningMethod
  Header : Header
  Claims : UserClaims
  Signature : Bytes
  Valid : Bool
  deriving DecidableEq, Repr

/-- The causes for which the validator rejects a claim set. -/
inductive ClaimError where
  | ErrTokenExpired
  | ErrTokenNotValidYet
  deriving DecidableEq, Repr

/-- The error kinds Parser.ParseWithClaims returns. -/
inductive JwtError where
  | ErrTokenMalformed
  | ErrTokenUnverifiable
  | ErrTokenSignatureInvalid
  | ErrTokenInvalidClaims (errs : List ClaimError)
  deriving DecidableEq, Repr

/-- The byte-level primitives of the package.

* marshalHeader, marshalClaims: json.Marshal followed by EncodeSegment (base64url);
  none when json.Marshal fails.
* unmarshalHeader, unmarshalClaims: DecodeSegment followed by json.Unmarshal into the
  header map, respectively into a UserClaims value; none when either step fails.
* EncodeSegment, DecodeSegment: base64url coding of the signature.
* Sign method signingString key: the method's Sign with a key of type byte slice; none
  when it returns an error.
* Verify method signingString signature key: whether the method's Verify returns nil. -/
structure JWTLib where
  marshalHeader : Header → Option String
  unmarshalHeader : String → Option Header
  marshalClaims : UserClaims → Option String
  unmarshalClaims : String → Option UserClaims
  EncodeSegment : Bytes → String
  DecodeSegment : String → Option Bytes
  Sign : SigningMethod → String → String → Option Bytes
  Verify : SigningMethod → String → Bytes → String → Bool

/-- The function jwt.NewWithClaims followed by Token.SignedString: the header holds
typ JWT and the method's name; the signing string is header.claims; the token is the
signing string, a dot and the encoded signature. -/
def SignedString (lib : JWTLib) (method : SigningMethod) (claims : UserClaims)
    (key : String) : Option String :=
  match lib.marshalHeader ⟨some method.Alg, some "JWT"⟩ with
  | Option.none => Option.none
  | some h =>
    match lib.marshalClaims claims with
    | Option.none => Option.none
    | some c =>
      match lib.Sign method (h ++ "." ++ c) key with
      | Option.none => Option.none
      | some sig => some (h ++ "." ++ c ++ "." ++ lib.EncodeSegment sig)

/-- The method Validator.Validate with the default options (no leeway, exp not
required, iat not checked, no expected audience, issuer or subject): the list of
failed checks at the instant now. -/
def Validate (now : Time) (claims : UserClaims) : List ClaimError :=
  (match claims.Registered.ExpiresAt with
    | some exp => if now < exp then [] else [ClaimError.ErrTokenExpired]
    | Option.none => []) ++
  (match claims.Registered.NotBefore with
    | some nbf => if now < nbf then [ClaimError.ErrTokenNotValidYet] else []
    | Option.none => [])

/-- The method Parser.ParseWithClaims with the default parser.  The key function
receives the unverified token; now is the validator's reading of the clock.  On an error
the source discards the token the package returns beside it, so only the error is kept.
Releases of the package differ in whether the signature segment is decoded before or
after the key lookup; that order decides only which error kind a doubly wrong token
gets. -/
def ParseWithClaims (lib : JWTLib) (tokenString : String)
    (keyFunc : Token → Except String String) (now : Time) : Except JwtError Token :=
  match Split tokenString '.' with
  | [p0, p1, p2] =>
    match lib.unmarshalHeader p0 with
    | Option.none => .error .ErrTokenMalformed
    | some header =>
      match lib.unmarshalClaims p1 with
      | Option.none => .error .ErrTokenMalformed
      | some claims =>
        match header.alg with
        | Option.none => .error .ErrTokenUnverifiable
        | some alg =>
          match GetSigningMethod alg with
          | Option.none => .error .ErrTokenUnverifiable
          | some method =>
            match lib.DecodeSegment p2 with
            | Option.none => .error .ErrTokenMalformed
            | some sig =>
              let token : Token := ⟨tokenString, method, header, claims, sig, false⟩
              match keyFunc token with
              | .error _ => .error .ErrTokenUnverifiable
              | .ok key =>
                if lib.Verify method (p0 ++ "." ++ p1) sig key then
                  match Validate now claims with
                  | [] => .ok ⟨tokenString, method, header, claims, sig, true⟩
                  | e :: es => .error (.ErrTokenInvalidClaims (e :: es))
                else .error .ErrTokenSignatureInvalid
  | _ => .error .ErrTokenMalformed

/-! ## `internal/utils/jwt.go` -/

/-- The claims GenerateToken builds.  The source reads the clock twice: now₁ for the
expiration time, now₂ for the issued-at time. -/
def issuedClaims (cfg : Config) (now₁ now₂ : Time) (userID : Int) (email role : String) :
    UserClaims :=
  let expirationTime := now₁ + cfg.JWTExpiry
  ⟨userID, email, role,
    ⟨"student-portal-api", "", [], some (NewNumericDate expirationTime), Option.none,
      some (NewNumericDate now₂), ""⟩⟩

/-- GenerateToken creates a new JWT for the given user ID, email, and role. -/
def GenerateToken (lib : JWTLib) (cfg : Config) (now₁ now₂ : Time)
    (userID : Int) (email role : String) : Except AppError String :=
  match SignedString lib .HS256 (issuedClaims cfg now₁ now₂ userID email role)
      cfg.JWTSecret with
  | Option.none => .error ErrInternalServerError
  | some tokenString => .ok tokenString

/-- The key function ValidateToken passes to the parser. -/
def keyFunc (cfg : Config) (token : Token) : Except String String :=
  if token.Method.isHMAC then .ok cfg.JWTSecret
  else .error "unexpected signing method"

/-- ValidateToken parses and validates a JWT string. -/
def ValidateToken (lib : JWTLib) (cfg : Config) (now : Time) (tokenStr : String) :
    Except AppError UserClaims :=
  match ParseWithClaims lib tokenStr (keyFunc cfg) now with
  | .error _ => .error ErrUnauthorized
  | .ok token =>
    if !token.Valid then .error ErrUnauthorized
    else .ok token.Claims

/-- The signing algorithm a token string advertises: the string-valued entry alg of its
header, none when the string has not three segments or the header does not decode. -/
def advertisedAlg (lib : JWTLib) (tokenStr : String) : Option String :=
  match Split tokenStr '.' with
  | [p0, _, _] =>
    match lib.unmarshalHeader p0 with
    | some header => header.alg
    | Option.none => Option.none
  | _ => Option.none

/-- The claims a token string carries, read without any verification: none when the
string has not three segments or the claims segment does not decode. -/
def unverifiedClaims (lib : JWTLib) (tokenStr : String) : Option UserClaims :=
  match Split tokenStr '.' with
  | [_, p1, _] => lib.unmarshalClaims p1
  | _ => Option.none

/-- The primitives are faithful on the token that signs the claims with the key under
the method: whenever the three segments are produced, none of them holds a dot, each
decodes to what was encoded, and Verify accepts the signature that Sign produced. -/
def JWTLib.Faithful (lib : JWTLib) (method : SigningMethod) (claims : UserClaims)
    (key : String) : Prop :=
  ∀ h c sig, lib.marshalHeader ⟨some method.Alg, some "JWT"⟩ = some h →
    lib.marshalClaims claims = some c →
    lib.Sign method (h ++ "." ++ c) key = some sig →
    '.' ∉ h.data ∧ '.' ∉ c.data ∧ '.' ∉ (lib.EncodeSegment sig).data ∧
    lib.unmarshalHeader h = some ⟨some method.Alg, some "JWT"⟩ ∧
    lib.unmarshalClaims c = some claims ∧
    lib.DecodeSegment (lib.EncodeSegment sig) = some sig ∧
    lib.Verify method (h ++ "." ++ c) sig key = true

/-! ## A reference instance of the byte-level primitives

The instance below is a small, total stand-in for JSON, base64url and HMAC on which the
definitions can be evaluated.  A segment is a sequence of fields, each closed by a
semicolon; inside a field the characters dot, semicolon and tilde are escaped, so that an
encoded segment never holds a dot.  Integers are written in unary after a sign, numeric
dates in whole seconds.  The tag of a signature is the method, the key and the signing
string; only the HMAC methods accept a key of type byte slice. -/

namespace Ref

/-- Escape dot, semicolon and tilde. -/
def esc : List Char → List Char
  | [] => []
  | c :: cs =>
    if c = '.' then '~' :: 'd' :: esc cs
    else if c = ';' then '~' :: 's' :: esc cs
    else if c = '~' then '~' :: 't' :: esc cs
    else c :: esc cs

/-- Undo esc; none on a dangling or unknown escape. -/
def unesc : List Char → Option (List Char)
  | [] => some []
  | c :: cs =>
    if c = '~' then
      match cs with
      | [] => none
      | d :: ds =>
        match unesc ds with
        | none => none
        | some r =>
          if d = 'd' then some ('.' :: r)
          else if d = 's' then some (';' :: r)
          else if d = 't' then some ('~' :: r)
          else none
    else
      match unesc cs with
      | none => none
      | some r => some (c :: r)

/-- Write the fields one after the other, each escaped and closed by a semicolon. -/
def joinFields : List (List Char) → List Char
  | [] => []
  | f :: fs => esc f ++ ';' :: joinFields fs

/-- Read the fields back; the second argument holds the current field, reversed. -/
def splitFieldsAux : List Char → List Char → Option (List (List Char))
  | [], acc => if acc = [] then some [] else none
  | c :: cs, acc =>
    if c = ';' then
      match unesc acc.reverse, splitFieldsAux cs [] with
      | some f, some fs => some (f :: fs)
      | _, _ => none
    else splitFieldsAux cs (c :: acc)

/-- Read the fields of a segment. -/
def splitFields (cs : List Char) : Option (List (List Char)) := splitFieldsAux cs []

/-- An integer in unary after its sign. -/
def encInt : Int → List Char
  | Int.ofNat n => '+' :: List.replicate n '1'
  | Int.negSucc n => '-' :: List.replicate n '1'

/-- Read an integer written by encInt. -/
def decInt : List Char → Option Int
  | [] => none
  | s :: ds =>
    if ds.all (fun d => d = '1') then
      if s = '+' then some (Int.ofNat ds.length)
      else if s = '-' then some (Int.negSucc ds.length)
      else none
    else none

/-- An optional string: n when absent, s followed by the text otherwise. -/
def encOptString : Option String → List Char
  | none => ['n']
  | some s => 's' :: s.data

/-- Read an optional string written by encOptString. -/
def decOptString : List Char → Option (Option String)
  | [] => none
  | t :: cs =>
    if t = 'n' then (if cs = [] then some none else none)
    else if t = 's' then some (some (String.mk cs))
    else none

/-- An optional numeric date, in whole seconds. -/
def encOptTime : Option Time → List Char
  | none => ['n']
  | some t => 's' :: encInt (t / Second)

/-- Read an optional numeric date written by encOptTime. -/
def decOptTime : List Char → Option (Option Time)
  | [] => none
  | t :: cs =>
    if t = 'n' then (if cs = [] then some none else none)
    else if t = 's' then
      match decInt cs with
      | none => none
      | some n => some (some (n * Second))
    else none

/-- The header segment. -/
def marshalHeader (h : Header) : Option String :=
  some (String.mk (joinFields [encOptString h.alg, encOptString h.typ]))

/-- Read a header segment. -/
def unmarshalHeader (s : String) : Option Header :=
  match splitFields s.data with
  | some [a, t] =>
    match decOptString a, decOptString t with
    | some alg, some typ => some ⟨alg, typ⟩
    | _, _ => none
  | _ => none

/-- The claims segment. -/
def marshalClaims (c : UserClaims) : Option String :=
  some (String.mk (joinFields
    [encInt c.UserID, c.Email.data, c.Role.data, c.Registered.Issuer.data,
     c.Registered.Subject.data, joinFields (c.Registered.Audience.map String.data),
     encOptTime c.Registered.ExpiresAt, encOptTime c.Registered.NotBefore,
     encOptTime c.Registered.IssuedAt, c.Registered.ID.data]))

/-- Read a claims segment. -/
def unmarshalClaims (s : String) : Option UserClaims :=
  match splitFields s.data with
  | some [uid, email, role, iss, sub, aud, exp, nbf, iat, id] =>
    match decInt uid, splitFields aud, decOptTime exp, decOptTime nbf, decOptTime iat with
    | some uid, some aud, some exp, some nbf, some iat =>
      some ⟨uid, String.mk email, String.mk role,
        ⟨String.mk iss, String.mk sub, aud.map String.mk, exp, nbf, iat, String.mk id⟩⟩
    | _, _, _, _, _ => none
  | _ => none

/-- The signature segment: one character per byte. -/
def EncodeSegment (b : Bytes) : String := String.mk (esc (b.map Char.ofNat))

/-- Read a signature segment. -/
def DecodeSegment (s : String) : Option Bytes :=
  match unesc s.data with
  | none => none
  | some cs => some (cs.map Char.toNat)

/-- The tag of a signing string under a key. -/
def tag (method : SigningMethod) (signingString key : String) : Bytes :=
  (method.Alg.data ++ ':' :: key.data ++ ':' :: signingString.data).map Char.toNat

/-- Sign: only the HMAC methods accept the key. -/
def Sign (method : SigningMethod) (signingString key : String) : Option Bytes :=
  if method.isHMAC then some (tag method signingString key) else none

/-- Verify: recompute the tag and compare. -/
def Verify (method : SigningMethod) (signingString : String) (sig : Bytes)
    (key : String) : Bool :=
  method.isHMAC && decide (sig = tag method signingString key)

end Ref

/-- The reference instance of the primitives. -/
def refLib : JWTLib :=
  ⟨Ref.marshalHeader, Ref.unmarshalHeader, Ref.marshalClaims, Ref.unmarshalClaims,
    Ref.EncodeSegment, Ref.DecodeSegment, Ref.Sign, Ref.Verify⟩

/-! ## `internal/constants/constants.go` and `context` -/

/-- A context key: a value of the package's type contextKey, or a key of another type. -/
inductive CtxKey where
  | contextKey (s : String)
  | other (s : String)
  deriving DecidableEq, Repr

/-- UserClaimsKey is the context key for storing the UserClaims. -/
def UserClaimsKey : CtxKey := .contextKey "userClaims"

/-- A value stored in a context: a pointer to a UserClaims, or a value of another type. -/
inductive CtxValue where
  | userClaims (c : UserClaims)
  | other (s : String)
  deriving DecidableEq, Repr

/-- A context: the chain of key and value pairs, the most recent first. -/
abbrev Context := List (CtxKey × CtxValue)

/-- The function context.WithValue. -/
def WithValue (ctx : Context) (key : CtxKey) (val : CtxValue) : Context :=
  (key, val) :: ctx

/-- The method Context.Value: the most recent value stored under the key. -/
def Value : Context → CtxKey → Option CtxValue
  | [], _ => none
  | (k, v) :: rest, key => if k = key then some v else Value rest key

/-! ## `net/http` -/

/-- The parts of an http.Request the interceptors read or pass on. -/
structure Request where
  Method : String
  Path : String
  Header : List (String × String)
  Body : String
  ctx : Context
  deriving DecidableEq, Repr

/-- The method Header.Get: the first value stored under the name, the empty string when
there is none. -/
def headerGet : List (String × String) → String → String
  | [], _ => ""
  | (k, v) :: rest, key => if k = key then v else headerGet rest key

/-- The method Request.WithContext. -/
def Request.WithContext (r : Request) (ctx : Context) : Request :=
  ⟨r.Method, r.Path, r.Header, r.Body, ctx⟩

/-- What a handler does, in order: writes to the response writer, calls of
utils.ValidateToken, the call of the next handler with the request it receives, and
entries written to the application logger at error severity. -/
inductive Effect where
  | setHeader (key value : String)
  | writeHeader (status : Nat)
  | encode (body : AppError)
  | validateToken (tokenStr : String)
  | serveNext (r : Request)
  | logError (msg : String)
  deriving DecidableEq, Repr

/-- The status code a handler wrote, if it wrote one. -/
def statusWritten : List Effect → Option Nat
  | [] => none
  | .writeHeader status :: _ => some status
  | _ :: rest => statusWritten rest

/-- The request handed to the next handler, if the next handler was called. -/
def nextRequest : List Effect → Option Request
  | [] => none
  | .serveNext r :: _ => some r
  | _ :: rest => nextRequest rest

/-- The token strings utils.ValidateToken was called with. -/
def validateCalls : List Effect → List String
  | [] => []
  | .validateToken t :: rest => t :: validateCalls rest
  | _ :: rest => validateCalls rest

/-- The entries written to the logger at error severity. -/
def errorLog : List Effect → List String
  | [] => []
  | .logError m :: rest => m :: errorLog rest
  | _ :: rest => errorLog rest

/-! ## `internal/middleware/auth_middleware.go` -/

/-- The function handleError: write the error as a JSON response; an error that is not
an application error is reported as ErrUnauthorized. -/
def handleError (err : GoError) : List Effect :=
  let appErr :=
    match err with
    | .app e => e
    | .other _ => ErrUnauthorized
  [.setHeader "Content-Type" "application/json", .writeHeader appErr.Code, .encode appErr]

/-- AuthMiddleware validates the JWT token and sets user claims in the context.  The
argument now is the reading of the clock inside ValidateToken. -/
def AuthMiddleware (lib : JWTLib) (cfg : Config) (now : Time) (r : Request) : List Effect :=
  let authHeader := headerGet r.Header "Authorization"
  if authHeader = "" then handleError (.app ErrUnauthorized)
  else
    match SplitN authHeader ' ' 2 with
    | [p0, p1] =>
      if p0 ≠ "Bearer" then handleError (.app ErrUnauthorized)
      else
        let tokenStr := p1
        .validateToken tokenStr ::
          match ValidateToken lib cfg now tokenStr with
          | .error err => handleError (.app err)
          | .ok claims =>
            let ctx := WithValue r.ctx UserClaimsKey (.userClaims claims)
            [.serveNext (r.WithContext ctx)]
    | _ => handleError (.app ErrUnauthorized)

/-- The loop of RoleMiddleware over the required roles. -/
def hasPermission (role : String) : List String → Bool
  | [] => false
  | required :: rest => if role = required then true else hasPermission role rest

/-- RoleMiddleware checks if the authenticated user has one of the required roles. -/
def RoleMiddleware (requiredRoles : List String) (r : Request) : List Effect :=
  match Value r.ctx UserClaimsKey with
  | some (.userClaims claims) =>
    if !hasPermission claims.Role requiredRoles then handleError (.app ErrForbidden)
    else [.serveNext r]
  | _ => handleError (.app ErrUnauthorized)

/-- GetUserClaims retrieves the UserClaims from the request context: the claims, none
for the nil pointer, and the effects performed. -/
def GetUserClaims (ctx : Context) : Option UserClaims × List Effect :=
  match Value ctx UserClaimsKey with
  | some (.userClaims claims) => (some claims, [])
  | _ => (none, [.logError "Attempted to get claims from context but none were present"])

/-! ## `golang.org/x/crypto/bcrypt` -/

namespace bcrypt

def MinCost : Nat := 4
def MaxCost : Nat := 31
def DefaultCost : Nat := 10
def majorVersion : Char := '2'
def minorVersion : Char := 'a'
def maxSaltSize : Nat := 16
def encodedSaltSize : Nat := 22
def encodedHashSize : Nat := 31
def minHashSize : Nat := 59

/-- The type hashed.  A minor version of 0 is the character of code 0. -/
structure hashed where
  hash : List Char
  salt : List Char
  cost : Nat
  major : Char
  minor : Char
  deriving DecidableEq, Repr

/-- The primitives of the package: base64Encode is its radix-64 coding of the raw salt,
bcrypt password cost salt is the encoded digest of the expensive key schedule, none when
it returns an error. -/
structure Lib where
  base64Encode : Bytes → String
  bcrypt : String → Nat → String → Option String

/-- The built-in copy into a window of n bytes of a zeroed array. -/
def fit (n : Nat) (xs : List Char) : List Char :=
  (xs ++ List.replicate n (Char.ofNat 0)).take n

/-- The first two characters of the cost printed with the verb %02d. -/
def costDigits (cost : Nat) : List Char :=
  if cost < 10 then ['0', Nat.digitChar cost] else (Nat.toDigits 10 cost).take 2

/-- The method hashed.Hash: dollar, version, dollar, cost, dollar, salt, digest.  The
salt of every hashed value the package builds has encodedSaltSize bytes. -/
def hashed.Hash (p : hashed) : List Char :=
  '$' :: p.major :: (if p.minor ≠ Char.ofNat 0 then [p.minor] else []) ++
    '$' :: costDigits p.cost ++ '$' :: fit encodedSaltSize p.salt ++
    fit encodedHashSize p.hash

/-- The function checkCost. -/
def checkCost (cost : Int) : Bool := !(cost < MinCost || cost > MaxCost)

/-- The value of a decimal digit. -/
def digitVal (c : Char) : Option Nat :=
  if '0' ≤ c ∧ c ≤ '9' then some (c.toNat - '0'.toNat) else none

/-- The function strconv.Atoi on a string of two bytes. -/
def atoi2 (a b : Char) : Option Int :=
  match digitVal a, digitVal b with
  | some x, some y => some (10 * x + y)
  | none, some y =>
    if a = '+' then some y
    else if a = '-' then some (-(y : Int))
    else none
  | _, none => none

/-- The function newFromPassword, given the 16 random bytes it reads. -/
def newFromPassword (lib : Lib) (password : String) (cost : Nat) (unencodedSalt : Bytes) :
    Option hashed :=
  let cost := if cost < MinCost then DefaultCost else cost
  if !checkCost cost then none
  else
    let salt := lib.base64Encode unencodedSalt
    match lib.bcrypt password cost salt with
    | none => none
    | some hash => some ⟨hash.data, salt.data, cost, majorVersion, minorVersion⟩

/-- The function GenerateFromPassword, given the 16 random bytes it reads. -/
def GenerateFromPassword (lib : Lib) (password : String) (cost : Nat)
    (unencodedSalt : Bytes) : Option String :=
  if password.utf8ByteSize > 72 then none
  else
    match newFromPassword lib password cost unencodedSalt with
    | none => none
    | some p => some (String.mk p.Hash)

/-- The function newFromHash with decodeVersion and decodeCost. -/
def newFromHash (hashedSecret : List Char) : Option hashed :=
  if hashedSecret.length < minHashSize then none
  else
    match hashedSecret with
    | c0 :: c1 :: c2 :: _ =>
      if c0 ≠ '$' then none
      else if c1 > majorVersion then none
      else
        let minor := if c2 ≠ '$' then c2 else Char.ofNat 0
        let n := if c2 ≠ '$' then 4 else 3
        match hashedSecret.drop n with
        | d0 :: d1 :: _ =>
          match atoi2 d0 d1 with
          | none => none
          | some cost =>
            if !checkCost cost then none
            else
              let rest := (hashedSecret.drop n).drop 3
              some ⟨rest.drop encodedSaltSize, rest.take encodedSaltSize, cost.toNat, c1, minor⟩
        | _ => none
    | _ => none

/-- The function CompareHashAndPassword: true when it returns nil. -/
def CompareHashAndPassword (lib : Lib) (hashedPassword password : String) : Bool :=
  match newFromHash hashedPassword.data with
  | none => false
  | some p =>
    match lib.bcrypt password p.cost (String.mk p.salt) with
    | none => false
    | some otherHash =>
      let otherP : hashed := ⟨otherHash.data, p.salt, p.cost, p.major, p.minor⟩
      decide (p.Hash = otherP.Hash)

/-- A raw salt as the package reads it: maxSaltSize bytes. -/
def isSalt (s : Bytes) : Prop := s.length = maxSaltSize ∧ ∀ b ∈ s, b < 256

/-- What the theorems use of the primitives: the coding of a raw salt has
encodedSaltSize bytes and is injective, and a digest has encodedHashSize bytes. -/
structure Lib.Lawful (lib : Lib) : Prop where
  salt_size : ∀ s, isSalt s → (lib.base64Encode s).length = encodedSaltSize
  salt_inj : ∀ s t, isSalt s → isSalt t → lib.base64Encode s = lib.base64Encode t → s = t
  hash_size : ∀ p c s h, lib.bcrypt p c s = some h → h.length = encodedHashSize

end bcrypt

/-! ## `internal/utils/password.go` -/

/-- HashPassword generates a bcrypt hash of the plain-text password; salt is the 16
random bytes the package reads for this call. -/
def HashPassword (lib : bcrypt.Lib) (password : String) (salt : Bytes) : Option String :=
  bcrypt.GenerateFromPassword lib password (bcrypt.MinCost + 4) salt

/-- CheckPasswordHash compares a plain-text password with its bcrypt hash. -/
def CheckPasswordHash (lib : bcrypt.Lib) (password hash : String) : Bool :=
  bcrypt.CompareHashAndPassword lib hash password

/-- A reference instance of the bcrypt primitives: a salt byte b below 256 is the
character of code 256 + b and the salt is filled with the letter A to 22 characters;
the digest is the first 31 characters of cost, salt and password, filled with x. -/
def refBcrypt : bcrypt.Lib :=
  ⟨fun salt => String.mk (salt.map (fun b => Char.ofNat (256 + b)) ++ List.replicate 6 'A'),
   fun password cost salt =>
    some (String.mk ((Nat.toDigits 10 cost ++ salt.data ++ password.data ++
      List.replicate 31 'x').take 31))⟩

/-! ## `internal/models/user.go` -/

/-- User represents the structure of the users table in the database. -/
structure User where
  ID : Int
  Name : String
  Email : String
  Password : String
  Role : String
  CreatedAt : Time
  UpdatedAt : Time
  deriving DecidableEq, Repr

/-- RegisterRequest is the structure for the registration request body. -/
structure RegisterRequest where
  Name : String
  Email : String
  Password : String
  Role : String
  deriving DecidableEq, Repr

/-- LoginRequest is the structure for the login request body. -/
structure LoginRequest where
  Email : String
  Password : String
  deriving DecidableEq, Repr

/-- UpdateProfileRequest is the structure for the update profile request body; a nil
pointer is none. -/
structure UpdateProfileRequest where
  Name : Option String
  Email : Option String
  deriving DecidableEq, Repr

/-- UpdateUserRequest is the structure for the admin update user request body. -/
structure UpdateUserRequest where
  Name : Option String
  Email : Option String
  Role : Option String
  deriving DecidableEq, Repr

/-- UserResponse is the standard response structure for a User, omitting the password. -/
structure UserResponse where
  ID : Int
  Name : String
  Email : String
  Role : String
  CreatedAt : Time
  UpdatedAt : Time
  deriving DecidableEq, Repr

/-- LoginResponse contains the JWT token and user info. -/
structure LoginResponse where
  Token : String
  User : UserResponse
  deriving DecidableEq, Repr

/-- ToResponse converts a User model to a UserResponse DTO. -/
def User.ToResponse (u : User) : UserResponse :=
  ⟨u.ID, u.Name, u.Email, u.Role, u.CreatedAt, u.UpdatedAt⟩

/-- ToResponsePtr converts a User model to a pointer to UserResponse DTO. -/
def User.ToResponsePtr (u : User) : UserResponse := u.ToResponse

/-- The zero value of time.Time, midnight of January 1 of year 1. -/
def zeroTime : Time := -62135596800 * Second

/-! ## `context` as the service layer and its collaborators see it -/

/-- A context.Context: its values, whether it is cancelled, and its deadline. -/
structure GoContext where
  values : Context
  cancelled : Bool
  deadline : Option Time
  deriving DecidableEq, Repr

/-- The function context.Background: no values, never cancelled, no deadline. -/
def Background : GoContext := ⟨[], false, none⟩

/-! ## `internal/repository/user_repository.go` -/

/-- The error classes of a statement on the pool that the repository tells apart: no
rows, a PostgreSQL error with its code, any other error. -/
inductive DBError where
  | ErrNoRows
  | PgError (code : String)
  | other (msg : String)
  deriving DecidableEq, Repr

/-- A row of the listing statement, which does not select the password. -/
structure ListRow where
  ID : Int
  Name : String
  Email : String
  Role : String
  CreatedAt : Time
  UpdatedAt : Time
  deriving DecidableEq, Repr

/-- The pool: what each statement of the repository answers in this run.  The insert
returns id, created_at and updated_at; the update returns updated_at; the listing
returns, per row, the scanned row or the scan error, and the error of rows.Err. -/
structure DB where
  insertUser : GoContext → String → String → String → String →
    Except DBError (Int × Time × Time)
  selectByID : GoContext → Int → Except DBError User
  selectByEmail : GoContext → String → Except DBError User
  updateUser : GoContext → Int → String → String → String → Except DBError Time
  deleteUser : GoContext → Int → Except DBError Nat
  countUsers : GoContext → Except DBError Int
  queryUsers : GoContext → Int → Int →
    Except DBError (List (Except DBError ListRow) × Option DBError)

/-- UserRepository defines the methods for interacting with the users data store.  A
method that fills fields of the user it is given returns the user as it leaves it. -/
structure UserRepository where
  CreateUser : GoContext → User → Except GoError User
  GetUserByID : GoContext → Int → Except GoError User
  GetUserByEmail : GoContext → String → Except GoError User
  UpdateUser : GoContext → User → Except GoError User
  DeleteUser : GoContext → Int → Option GoError
  ListUsers : GoContext → Int → Int → Except GoError (List User × Int)

/-- The error a failed insert or update is reported as: a unique violation (code 23505)
is ErrEmailExists, anything else ErrInternalServerError. -/
def writeError : DBError → GoError
  | .PgError code =>
    if code = "23505" then .app ErrEmailExists else .app ErrInternalServerError
  | _ => .app ErrInternalServerError

/-- The method userRepository.CreateUser. -/
def userRepository.CreateUser (db : DB) (ctx : GoContext) (user : User) :
    Except GoError User :=
  match db.insertUser ctx user.Name user.Email user.Password user.Role with
  | .error err => .error (writeError err)
  | .ok (id, createdAt, updatedAt) =>
    .ok ⟨id, user.Name, user.Email, user.Password, user.Role, createdAt, updatedAt⟩

/-- The method userRepository.GetUserByID. -/
def userRepository.GetUserByID (db : DB) (ctx : GoContext) (id : Int) :
    Except GoError User :=
  match db.selectByID ctx id with
  | .error .ErrNoRows => .error (.app ErrNotFound)
  | .error _ => .error (.app ErrInternalServerError)
  | .ok user => .ok user

/-- The method userRepository.GetUserByEmail. -/
def userRepository.GetUserByEmail (db : DB) (ctx : GoContext) (email : String) :
    Except GoError User :=
  match db.selectByEmail ctx email with
  | .error .ErrNoRows => .error (.app ErrNotFound)
  | .error _ => .error (.app ErrInternalServerError)
  | .ok user => .ok user

/-- The method userRepository.UpdateUser. -/
def userRepository.UpdateUser (db : DB) (ctx : GoContext) (user : User) :
    Except GoError User :=
  match db.updateUser ctx user.ID user.Name user.Email user.Role with
  | .error .ErrNoRows => .error (.app ErrNotFound)
  | .error err => .error (writeError err)
  | .ok updatedAt =>
    .ok ⟨user.ID, user.Name, user.Email, user.Password, user.Role, user.CreatedAt, updatedAt⟩

/-- The method userRepository.DeleteUser. -/
def userRepository.DeleteUser (db : DB) (ctx : GoContext) (id : Int) : Option GoError :=
  match db.deleteUser ctx id with
  | .error _ => some (.app ErrInternalServerError)
  | .ok rowsAffected => if rowsAffected = 0 then some (.app ErrNotFound) else none

/-- The scanning loop of ListUsers: the users read, none at the first scan error. -/
def scanRows : List (Except DBError ListRow) → Option (List User)
  | [] => some []
  | .error _ :: _ => none
  | .ok row :: rest =>
    match scanRows rest with
    | none => none
    | some users =>
      some (⟨row.ID, row.Name, row.Email, "", row.Role, row.CreatedAt, row.UpdatedAt⟩ :: users)

/-- The method userRepository.ListUsers. -/
def userRepository.ListUsers (db : DB) (ctx : GoContext) (limit offset : Int) :
    Except GoError (List User × Int) :=
  match db.countUsers ctx with
  | .error _ => .error (.app ErrInternalServerError)
  | .ok totalCount =>
    match db.queryUsers ctx limit offset with
    | .error _ => .error (.app ErrInternalServerError)
    | .ok (rows, rowsErr) =>
      match scanRows rows with
      | none => .error (.app ErrInternalServerError)
      | some users =>
        match rowsErr with
        | some _ => .error (.app ErrInternalServerError)
        | none => .ok (users, totalCount)

/-- The function NewUserRepository. -/
def NewUserRepository (db : DB) : UserRepository :=
  ⟨userRepository.CreateUser db, userRepository.GetUserByID db,
    userRepository.GetUserByEmail db, userRepository.UpdateUser db,
    userRepository.DeleteUser db, userRepository.ListUsers db⟩

/-! ## `internal/utils/kafka.go` -/

/-- Topic for user authentication and lifecycle events (registration, login). -/
def TopicUserEvents : String := "user-auth-events"

/-- A JSON value of the kinds an AuthEvent holds. -/
inductive JSONValue where
  | str (s : String)
  | num (n : Int)
  | time (t : Time)
  deriving DecidableEq, Repr

/-- AuthEvent represents authentication events. -/
structure AuthEvent where
  EventType : String
  UserID : Int
  Email : String
  Name : String
  Role : String
  Timestamp : Time
  IPAddress : String
  UserAgent : String
  deriving DecidableEq, Repr

/-- The call json.Marshal on an AuthEvent: the members of the object in order, under the
names of the struct tags; a member tagged omitempty is left out when its string is
empty.  The call cannot fail on this type. -/
def AuthEvent.Marshal (e : AuthEvent) : List (String × JSONValue) :=
  [("event_type", .str e.EventType), ("user_id", .num e.UserID), ("email", .str e.Email),
    ("name", .str e.Name), ("role", .str e.Role), ("timestamp", .time e.Timestamp)] ++
  (if e.IPAddress = "" then [] else [("ip_address", .str e.IPAddress)]) ++
  (if e.UserAgent = "" then [] else [("user_agent", .str e.UserAgent)])

/-- The type kafka.Message, with the value kept as the JSON object it encodes. -/
structure Message where
  Topic : String
  Key : String
  Value : List (String × JSONValue)
  Time : Time
  deriving DecidableEq, Repr

/-- KafkaProducer handles Kafka message publishing; writer is what the method
Writer.WriteMessages returns in this run, none for a nil error. -/
structure KafkaProducer where
  writer : GoContext → Message → Option GoError

/-- The defunctionalised closures handed to publishAsync: which method of the producer the
closure calls, with the user id, email, name and role it captured. -/
inductive EventFunc where
  | PublishRegisterEvent (userID : Int) (email name role : String)
  | PublishLoginEvent (userID : Int) (email name role : String)
  | PublishUpdateEvent (userID : Int) (email name role : String)
  deriving DecidableEq, Repr

/-- What the service layer and the goroutines it starts do, in order. -/
inductive SvcEffect where
  | hashPassword (password : String)
  | createUser (ctx : GoContext) (user : User)
  | getUserByID (ctx : GoContext) (id : Int)
  | getUserByEmail (ctx : GoContext) (email : String)
  | updateUser (ctx : GoContext) (user : User)
  | deleteUser (ctx : GoContext) (id : Int)
  | listUsers (ctx : GoContext) (limit offset : Int)
  | checkPasswordHash (password hash : String)
  | generateToken (userID : Int) (email role : String)
  | go (eventFunc : EventFunc) (eventName : String) (userID : Int)
  | writeMessages (ctx : GoContext) (m : Message)
  | logError (msg : String) (err : GoError) (event : String) (userID : Int)
  | logInfo (msg : String) (event : String) (userID : Int)
  deriving DecidableEq, Repr

/-- PublishMessage publishes a message to a specific topic; now is its reading of the
clock.  The value is always an AuthEvent, on which json.Marshal does not fail. -/
def KafkaProducer.PublishMessage (p : KafkaProducer) (ctx : GoContext) (topic key : String)
    (value : AuthEvent) (now : Time) : Option GoError × List SvcEffect :=
  let message : Message := ⟨topic, key, value.Marshal, now⟩
  (p.writer ctx message, [.writeMessages ctx message])

/-- PublishLoginEvent publishes a login event to Kafka; now₁ is the clock reading for
the event's timestamp, now₂ the one of PublishMessage. -/
def KafkaProducer.PublishLoginEvent (p : KafkaProducer) (ctx : GoContext) (userID : Int)
    (email name role : String) (now₁ now₂ : Time) : Option GoError × List SvcEffect :=
  let event : AuthEvent := ⟨"user_login", userID, email, name, role, now₁, "", ""⟩
  p.PublishMessage ctx "user-auth-events" email event now₂

/-- PublishRegisterEvent publishes a register event to Kafka. -/
def KafkaProducer.PublishRegisterEvent (p : KafkaProducer) (ctx : GoContext) (userID : Int)
    (email name role : String) (now₁ now₂ : Time) : Option GoError × List SvcEffect :=
  let event : AuthEvent := ⟨"user_register", userID, email, name, role, now₁, "", ""⟩
  p.PublishMessage ctx "user-auth-events" email event now₂

/-- PublishUpdateEvent publishes an update event to Kafka. -/
def KafkaProducer.PublishUpdateEvent (p : KafkaProducer) (ctx : GoContext) (userID : Int)
    (email name role : String) (now₁ now₂ : Time) : Option GoError × List SvcEffect :=
  let event : AuthEvent := ⟨"user_update", userID, email, name, role, now₁, "", ""⟩
  p.PublishMessage ctx "user-auth-events" email event now₂

/-- The messages handed to the writer, with the context of each call. -/
def writes : List SvcEffect → List (GoContext × Message)
  | [] => []
  | .writeMessages ctx m :: rest => (ctx, m) :: writes rest
  | _ :: rest => writes rest

/-- The goroutines started, as the arguments of publishAsync. -/
def started : List SvcEffect → List (EventFunc × String × Int)
  | [] => []
  | .go f name id :: rest => (f, name, id) :: started rest
  | _ :: rest => started rest

/-- The calls of utils.GenerateToken. -/
def tokenCalls : List SvcEffect → List (Int × String × String)
  | [] => []
  | .generateToken id email role :: rest => (id, email, role) :: tokenCalls rest
  | _ :: rest => tokenCalls rest

/-- The entries logged at error severity, by message. -/
def errorEntries : List SvcEffect → List String
  | [] => []
  | .logError msg _ _ _ :: rest => msg :: errorEntries rest
  | _ :: rest => errorEntries rest

/-! ## `internal/service/user_service.go` -/

/-- The type userService. -/
structure userService where
  repo : UserRepository
  cfg : Config
  kafka : KafkaProducer

/-- What a request reads from outside the service: the primitives of the two packages,
the random salt HashPassword draws, and the two clock readings of GenerateToken. -/
structure Runtime where
  jwt : JWTLib
  bcrypt : bcrypt.Lib
  salt : Bytes
  now₁ : Time
  now₂ : Time

/-- The call of a closure handed to publishAsync, on a context and two clock readings. -/
def EventFunc.call (p : KafkaProducer) (ctx : GoContext) (now₁ now₂ : Time) :
    EventFunc → Option GoError × List SvcEffect
  | .PublishRegisterEvent userID email name role =>
    p.PublishRegisterEvent ctx userID email name role now₁ now₂
  | .PublishLoginEvent userID email name role =>
    p.PublishLoginEvent ctx userID email name role now₁ now₂
  | .PublishUpdateEvent userID email name role =>
    p.PublishUpdateEvent ctx userID email name role now₁ now₂

/-- publishAsync handles the non-blocking publication and logs any failure: the caller
only starts the goroutine. -/
def publishAsync (eventFunc : EventFunc) (eventName : String) (userID : Int) :
    List SvcEffect :=
  [.go eventFunc eventName userID]

/-- The body of the goroutine publishAsync starts; now₁ and now₂ are the clock readings
of the publication. -/
def publishAsyncBody (s : userService) (eventFunc : EventFunc) (eventName : String)
    (userID : Int) (now₁ now₂ : Time) : List SvcEffect :=
  match eventFunc.call s.kafka Background now₁ now₂ with
  | (some err, effects) =>
    effects ++ [.logError "Failed to publish Kafka event" err eventName userID]
  | (none, effects) =>
    effects ++ [.logInfo "Successfully published Kafka event" eventName userID]

/-- The effects of the goroutines a trace started, each run to its end. -/
def runGoroutines (s : userService) (now₁ now₂ : Time) : List SvcEffect → List SvcEffect
  | [] => []
  | .go eventFunc eventName userID :: rest =>
    publishAsyncBody s eventFunc eventName userID now₁ now₂ ++ runGoroutines s now₁ now₂ rest
  | _ :: rest => runGoroutines s now₁ now₂ rest

/-- The method userService.RegisterUser: what it returns and what it does. -/
def userService.RegisterUser (s : userService) (rt : Runtime) (ctx : GoContext)
    (req : RegisterRequest) : Except GoError UserResponse × List SvcEffect :=
  match HashPassword rt.bcrypt req.Password rt.salt with
  | none => (.error (.app ErrInternalServerError), [.hashPassword req.Password])
  | some hashedPassword =>
    let user : User := ⟨0, req.Name, req.Email, hashedPassword, req.Role, zeroTime, zeroTime⟩
    match s.repo.CreateUser ctx user with
    | .error err => (.error err, [.hashPassword req.Password, .createUser ctx user])
    | .ok user' =>
      (.ok user'.ToResponsePtr,
        [.hashPassword req.Password, .createUser ctx user] ++
          publishAsync (.PublishRegisterEvent user'.ID user'.Email user'.Name user'.Role)
            "user_registered" user'.ID)

/-- The method userService.LoginUser.  The source compares the error with ErrNotFound by
identity; the predefined errors differ pairwise in status or message, so they are told
apart by value here. -/
def userService.LoginUser (s : userService) (rt : Runtime) (ctx : GoContext)
    (req : LoginRequest) : Except GoError LoginResponse × List SvcEffect :=
  match s.repo.GetUserByEmail ctx req.Email with
  | .error err =>
    if err = .app ErrNotFound then
      (.error (.app ErrInvalidCredentials), [.getUserByEmail ctx req.Email])
    else (.error err, [.getUserByEmail ctx req.Email])
  | .ok user =>
    if !CheckPasswordHash rt.bcrypt req.Password user.Password then
      (.error (.app ErrInvalidCredentials),
        [.getUserByEmail ctx req.Email, .checkPasswordHash req.Password user.Password])
    else
      match GenerateToken rt.jwt s.cfg rt.now₁ rt.now₂ user.ID user.Email user.Role with
      | .error err =>
        (.error (.app err),
          [.getUserByEmail ctx req.Email, .checkPasswordHash req.Password user.Password,
            .generateToken user.ID user.Email user.Role])
      | .ok token =>
        (.ok ⟨token, user.ToResponse⟩,
          [.getUserByEmail ctx req.Email, .checkPasswordHash req.Password user.Password,
            .generateToken user.ID user.Email user.Role] ++
            publishAsync (.PublishLoginEvent user.ID user.Email user.Name user.Role)
              "user_logged_in" user.ID)

/-- Assign through a pointer that may be nil. -/
def assignIfPresent (new : Option String) (old : String) : String :=
  match new with
  | some v => v
  | none => old

/-- The method userService.UpdateProfile. -/
def userService.UpdateProfile (s : userService) (ctx : GoContext) (id : Int)
    (req : UpdateProfileRequest) : Except GoError UserResponse × List SvcEffect :=
  match s.repo.GetUserByID ctx id with
  | .error err => (.error err, [.getUserByID ctx id])
  | .ok user =>
    let user : User :=
      ⟨user.ID, assignIfPresent req.Name user.Name, assignIfPresent req.Email user.Email,
        user.Password, user.Role, user.CreatedAt, user.UpdatedAt⟩
    match s.repo.UpdateUser ctx user with
    | .error err => (.error err, [.getUserByID ctx id, .updateUser ctx user])
    | .ok user' =>
      (.ok user'.ToResponsePtr,
        [.getUserByID ctx id, .updateUser ctx user] ++
          publishAsync (.PublishUpdateEvent user'.ID user'.Email user'.Name user'.Role)
            "user_updated" user'.ID)

/-- The method userService.UpdateUser. -/
def userService.UpdateUser (s : userService) (ctx : GoContext) (id : Int)
    (req : UpdateUserRequest) : Except GoError UserResponse × List SvcEffect :=
  match s.repo.GetUserByID ctx id with
  | .error err => (.error err, [.getUserByID ctx id])
  | .ok user =>
    let user : User :=
      ⟨user.ID, assignIfPresent req.Name user.Name, assignIfPresent req.Email user.Email,
        user.Password, assignIfPresent req.Role user.Role, user.CreatedAt, user.UpdatedAt⟩
    match s.repo.UpdateUser ctx user with
    | .error err => (.error err, [.getUserByID ctx id, .updateUser ctx user])
    | .ok user' =>
      (.ok user'.ToResponsePtr,
        [.getUserByID ctx id, .updateUser ctx user] ++
          publishAsync (.PublishUpdateEvent user'.ID user'.Email user'.Name user'.Role)
            "user_updated_admin" user'.ID)

/-- The method userService.GetUserByID. -/
def userService.GetUserByID (s : userService) (ctx : GoContext) (id : Int) :
    Except GoError UserResponse × List SvcEffect :=
  match s.repo.GetUserByID ctx id with
  | .error err => (.error err, [.getUserByID ctx id])
  | .ok user => (.ok user.ToResponsePtr, [.getUserByID ctx id])

/-- The method userService.DeleteUser. -/
def userService.DeleteUser (s : userService) (ctx : GoContext) (id : Int) :
    Option GoError × List SvcEffect :=
  (s.repo.DeleteUser ctx id, [.deleteUser ctx id])

/-- The method userService.ListUsers. -/
def userService.ListUsers (s : userService) (ctx : GoContext) (limit offset : Int) :
    Except GoError (List UserResponse × Int) × List SvcEffect :=
  match s.repo.ListUsers ctx limit offset with
  | .error err => (.error err, [.listUsers ctx limit offset])
  | .ok (users, totalCount) =>
    (.ok (users.map User.ToResponse, totalCount), [.listUsers ctx limit offset])

/-! ## `internal/utils/response.go` -/

/-- The data a success response carries. -/
inductive ResponseData where
  | user (u : UserResponse)
  | login (l : LoginResponse)
  | users (us : List UserResponse)
  deriving DecidableEq, Repr

/-- The type Response; Data is none for the nil interface. -/
structure Response where
  Success : Bool
  Data : Option ResponseData
  Error : String
  Message : String
  deriving DecidableEq, Repr

/-- What the helpers of response.go do to the response writer, in order. -/
inductive WriteEffect where
  | setHeader (key value : String)
  | writeHeader (status : Nat)
  | encode (body : Response)
  deriving DecidableEq, Repr

/-- The function WriteJSON. -/
def WriteJSON (statusCode : Nat) (data : Response) : List WriteEffect :=
  [.setHeader "Content-Type" "application/json", .writeHeader statusCode, .encode data]

/-- The function WriteSuccess. -/
def WriteSuccess (statusCode : Nat) (data : Option ResponseData) : List WriteEffect :=
  WriteJSON statusCode ⟨true, data, "", ""⟩

/-- The function WriteError; StatusText is the table http.StatusText. -/
def WriteError (StatusText : Nat → String) (statusCode : Nat) (message : String) :
    List WriteEffect :=
  WriteJSON statusCode ⟨false, none, StatusText statusCode, message⟩

/-- The function SendError. -/
def SendError (StatusText : Nat → String) (err : GoError) : List WriteEffect :=
  match err with
  | .app appErr => WriteJSON appErr.Code ⟨false, none, StatusText appErr.Code, appErr.Message⟩
  | .other _ => WriteError StatusText 500 "An unexpected error occurred"

/-- The function SendJSON. -/
def SendJSON (statusCode : Nat) (data : Option ResponseData) : List WriteEffect :=
  WriteSuccess statusCode data

/-! ## `internal/utils/pagination.go` -/

/-- DefaultPage is the default page number for pagination. -/
def DefaultPage : Int := 1

/-- DefaultPageSize is the default page size for pagination. -/
def DefaultPageSize : Int := 10

/-- DefaultLimit is the default limit for pagination. -/
def DefaultLimit : Int := 10

/-- MaxLimit is the maximum limit for pagination. -/
def MaxLimit : Int := 100

/-- The value of a 64-bit signed integer after an operation whose exact result is x. -/
def wrapInt64 (x : Int) : Int := (x + 2 ^ 63) % 2 ^ 64 - 2 ^ 63

/-- The number a list of decimal digits denotes after the digits read so far; none when
a character is not a decimal digit. -/
def readDigits : List Char → Nat → Option Nat
  | [], acc => some acc
  | c :: cs, acc =>
    if '0' ≤ c ∧ c ≤ '9' then readDigits cs (10 * acc + (c.toNat - '0'.toNat)) else none

/-- The function strconv.Atoi on a 64-bit platform: an optional sign and at least one
decimal digit, the value within the range of int; none when it returns an error. -/
def Atoi (s : String) : Option Int :=
  let signed (neg : Bool) (ds : List Char) : Option Int :=
    match ds with
    | [] => none
    | _ :: _ =>
      match readDigits ds 0 with
      | none => none
      | some n =>
        let v : Int := if neg then -(n : Int) else n
        if -(2 : Int) ^ 63 ≤ v ∧ v ≤ 2 ^ 63 - 1 then some v else none
  match s.data with
  | [] => none
  | c :: cs =>
    if c = '-' then signed true cs
    else if c = '+' then signed false cs
    else signed false (c :: cs)

/-- The method url.Values.Get on the parsed query of the request: the first value stored
under the key, the empty string when there is none. -/
def queryGet : List (String × String) → String → String
  | [], _ => ""
  | (k, v) :: rest, key => if k = key then v else queryGet rest key

/-- PaginationQuery holds the parsed page and limit values from the request. -/
structure PaginationQuery where
  Page : Int
  Limit : Int
  Offset : Int
  deriving DecidableEq, Repr

/-- NewPaginationQuery parses the page and limit query parameters from the request,
given as the parsed query of its URL. -/
def NewPaginationQuery (query : List (String × String)) : PaginationQuery :=
  let pageStr := queryGet query "page"
  let limitStr := queryGet query "limit"
  let page :=
    match Atoi pageStr with
    | none => DefaultPage
    | some page => if page ≤ 0 then DefaultPage else page
  let limit :=
    match Atoi limitStr with
    | none => DefaultLimit
    | some limit => if limit ≤ 0 then DefaultLimit else limit
  let limit := if limit > MaxLimit then MaxLimit else limit
  let offset := wrapInt64 ((page - 1) * limit)
  ⟨page, limit, offset⟩

/-- PaginationResponse holds the metadata and data for a paginated response. -/
structure PaginationResponse (α : Type) where
  Data : α
  Page : Int
  Limit : Int
  TotalCount : Int
  TotalPages : Int
  deriving DecidableEq, Repr

/-- NewPaginationResponse creates a PaginationResponse object.  The sum and the
difference are those of 64-bit integers, the quotient is Go's, which rounds toward zero;
the conversions between int and int64 keep the value on a 64-bit platform. -/
def NewPaginationResponse {α : Type} (data : α) (query : PaginationQuery)
    (totalCount : Int) : PaginationResponse α :=
  let totalPages :=
    if query.Limit > 0 then
      Int.tdiv (wrapInt64 (wrapInt64 (totalCount + query.Limit) - 1)) query.Limit
    else 0
  ⟨data, query.Page, query.Limit, totalCount, totalPages⟩

/-- The records handed to the repository's UpdateUser. -/
def updateCalls : List SvcEffect → List User
  | [] => []
  | .updateUser _ user :: rest => user :: updateCalls rest
  | _ :: rest => updateCalls rest

/-- The limit and offset handed to the repository's ListUsers. -/
def listCalls : List SvcEffect → List (Int × Int)
  | [] => []
  | .listUsers _ limit offset :: rest => (limit, offset) :: listCalls rest
  | _ :: rest => listCalls rest

/-! ## `cmd/api/main.go` -/

/-- What the main goroutine does, in order.  A log entry is given by its message, a
formatted one by its format string. -/
inductive MainEffect where
  | loadConfig
  | initLogger
  | logInfo (msg : String)
  | logError (msg : String)
  | logFatal (msg : String)
  | notifyContext
  | initDB
  | createTopics
  | newKafkaProducer
  | startConsumer
  | setupRouter
  | goListenAndServe
  | waitSignal
  | withTimeout (d : Duration)
  | serverShutdown (bound : Duration)
  | cancel
  | consumerReaderClose
  | producerClose
  | dbPoolClose
  | stop
  | syncLogger
  deriving DecidableEq, Repr

/-- A statement of main: an effect, a defer of some effects, or a call of
logger.Logger.Fatal, which logs and exits the process. -/
inductive Stmt where
  | eff (e : MainEffect)
  | defer (es : List MainEffect)
  | fatal (msg : String)
  deriving DecidableEq, Repr

/-- Run the statements of a function body; the second argument is the stack of deferred
calls, the most recent first.  At the end of the body the deferred calls run from the
top of the stack; a fatal log exits without running them. -/
def runBody : List Stmt → List (List MainEffect) → List MainEffect
  | [], deferred => deferred.flatten
  | .eff e :: rest, deferred => e :: runBody rest deferred
  | .defer es :: rest, deferred => runBody rest (es :: deferred)
  | .fatal msg :: _, _ => [.logFatal msg]

/-- What the collaborators of main answer in a run: the error of each call, none for
nil. -/
structure Outcomes where
  initDB : Option String
  createTopics : Option String
  shutdown : Option String
  consumerClose : Option String
  producerClose : Option String
  deriving DecidableEq, Repr

/-- The body of main, up to the end of the signal wait it reaches when the database and
the broker are there. -/
def mainBody (o : Outcomes) : List Stmt :=
  [.eff .loadConfig, .eff .initLogger, .defer [.syncLogger],
    .eff (.logInfo "Starting server in %s environment"),
    .eff .notifyContext, .defer [.stop],
    .eff .initDB] ++
  (match o.initDB with
    | some _ => [.fatal "Failed to connect to database: %v"]
    | none =>
      [.defer [.dbPoolClose], .eff .createTopics] ++
      (match o.createTopics with
        | some _ => [.fatal "Failed to connect to Kafka or create topics: %v"]
        | none =>
          [.eff .newKafkaProducer, .defer [.producerClose],
            .eff .startConsumer,
            .defer
              [.consumerReaderClose,
                match o.consumerClose with
                | some _ => .logError "Failed to gracefully close Kafka consumer reader"
                | none => .logInfo "Kafka consumer reader closed successfully"],
            .eff .setupRouter, .eff .goListenAndServe,
            .eff .waitSignal,
            .eff (.logInfo "Server shutting down..."),
            .eff (.withTimeout (5 * Second)), .defer [.cancel],
            .eff (.serverShutdown (5 * Second)),
            .eff (match o.shutdown with
              | some _ => .logError "Server shutdown failed: %v"
              | none => .logInfo "Server gracefully stopped")]))

/-- The function main: the effects of the main goroutine in a run. -/
def main (o : Outcomes) : List MainEffect := runBody (mainBody o) []

/-- The effects after the first occurrence of an effect. -/
def after (e : MainEffect) : List MainEffect → List MainEffect
  | [] => []
  | x :: rest => if x = e then rest else after e rest

/-! ## The header grammar as the specification words it -/

/-- White space in the sense of the function unicode.IsSpace, on ASCII. -/
def isSpace (c : Char) : Bool :=
  c = ' ' || c = '\t' || c = '\n' || c = '\r' || c = Char.ofNat 11 || c = Char.ofNat 12

/-- The maximal runs of characters that are not white space; the second argument holds
the current run, reversed. -/
def tokensAux : List Char → List Char → List (List Char)
  | [], cur => if cur = [] then [] else [cur.reverse]
  | c :: cs, cur =>
    if isSpace c then
      if cur = [] then tokensAux cs [] else cur.reverse :: tokensAux cs []
    else tokensAux cs (c :: cur)

/-- The whitespace-separated tokens of a header value. -/
def whitespaceTokens (s : String) : List String := (tokensAux s.data []).map String.mk

/-- The header grammar in the words of the specification: exactly two
whitespace-separated tokens, the first of which is the literal Bearer. -/
def twoTokenBearer (s : String) : Prop := ∃ t, whitespaceTokens s = ["Bearer", t]

/-- A request carrying the given Authorization header and an empty context. -/
def requestWith (authorization : String) : Request :=
  ⟨"GET", "/api/users", [("Authorization", authorization)], "", []⟩

/-! ## Example data -/

/-- A configuration with secret k and an expiry of two seconds. -/
def exampleCfg : Config := ⟨"k", 2 * Second⟩

/-- The claims GenerateToken builds under exampleCfg for user 7 when it reads the clock
five and seven nanoseconds after second 3. -/
def exampleClaims : UserClaims :=
  ⟨7, "a@b.c", "admin",
    ⟨"student-portal-api", "", [], some (5 * Second), none, some (3 * Second), ""⟩⟩

/-- The claims segment of exampleClaims under the reference primitives. -/
def examplePayload : String :=
  "+1111111;a@b~dc;admin;student-portal-api;;;s+11111;n;s+111;;"

/-- The signature segment of exampleClaims under a method and a key. -/
def exampleSignature (alg key : String) : String :=
  alg ++ ":" ++ key ++ ":s" ++ alg ++
    "~ssJWT~s~d+1111111~sa@b~tdc~sadmin~sstudent-portal-api~s~s~ss+11111~sn~ss+111~s~s"

/-- The token that signs exampleClaims under a method and a key. -/
def exampleToken (alg key : String) : String :=
  "s" ++ alg ++ ";sJWT;." ++ examplePayload ++ "." ++ exampleSignature alg key

/-- A token whose header advertises RS256. -/
def exampleTokenRS256 : String := "sRS256;sJWT;." ++ examplePayload ++ ".zz"

/-- Two raw salts that differ in their last byte. -/
def exampleSalt₁ : Bytes := [1, 2, 3, 4, 5, 6, 7, 8, 9, 10, 11, 12, 13, 14, 15, 16]

/-- The second raw salt. -/
def exampleSalt₂ : Bytes := [1, 2, 3, 4, 5, 6, 7, 8, 9, 10, 11, 12, 13, 14, 15, 17]

/-- A user on record: her password hash is the one HashPassword gives for pw under the
first example salt. -/
def exampleUser : User :=
  ⟨7, "Ann", "a@b.c",
    "$2a$08$āĂăĄąĆćĈĉĊċČčĎďĐAAAAAA8āĂăĄąĆćĈĉĊċČčĎďĐAAAAAApwxxxxxx", "admin",
    3 * Second, 3 * Second⟩

/-- A pool that holds exampleUser alone: a statement on another id or email finds no
row, an insert of her email violates the unique constraint, any other insert gets
id 8. -/
def exampleDB : DB :=
  ⟨fun _ _ email _ _ =>
      if email = "a@b.c" then .error (.PgError "23505") else .ok (8, 4 * Second, 4 * Second),
    fun _ id => if id = 7 then .ok exampleUser else .error .ErrNoRows,
    fun _ email => if email = "a@b.c" then .ok exampleUser else .error .ErrNoRows,
    fun _ id _ _ _ => if id = 7 then .ok (9 * Second) else .error .ErrNoRows,
    fun _ id => if id = 7 then .ok 1 else .ok 0,
    fun _ => .ok 1,
    fun _ _ _ => .ok ([.ok ⟨7, "Ann", "a@b.c", "admin", 3 * Second, 3 * Second⟩], none)⟩

/-- A producer whose writer accepts every message. -/
def goodProducer : KafkaProducer := ⟨fun _ _ => none⟩

/-- A producer whose writer fails on every message. -/
def badProducer : KafkaProducer := ⟨fun _ _ => some (.other "broker unreachable")⟩

/-- The service over exampleDB, exampleCfg and a producer. -/
def exampleService (kafka : KafkaProducer) : userService :=
  ⟨NewUserRepository exampleDB, exampleCfg, kafka⟩

/-- The reference primitives, the first example salt, and the clock just after
second 3. -/
def exampleRuntime : Runtime := ⟨refLib, refBcrypt, exampleSalt₁, 3 * Second + 5, 3 * Second + 7⟩

/-- A request context that is already cancelled. -/
def cancelledContext : GoContext := ⟨[], true, none⟩

/-- A small table in the place of http.StatusText. -/
def exampleStatusText (code : Nat) : String :=
  if code = 401 then "Unauthorized"
  else if code = 409 then "Conflict"
  else if code = 500 then "Internal Server Error"
  else ""

set_option maxRecDepth 8192

/-! ## Splitting -/

theorem splitChars_of_not_mem (sep : Char) (a : List Char) (h : sep ∉ a) :
    splitChars sep a = [a] := by
  induction a with
  | nil => rfl
  | cons c cs ih =>
    have hc : c ≠ sep := fun e => h (by simp [e])
    have hcs : sep ∉ cs := fun e => h (by simp [e])
    simp [splitChars, hc, ih hcs]

theorem splitChars_append (sep : Char) (a b : List Char) (h : sep ∉ a) :
    splitChars sep (a ++ sep :: b) = a :: splitChars sep b := by
  induction a with
  | nil => simp [splitChars]
  | cons c cs ih =>
    have hc : c ≠ sep := fun e => h (by simp [e])
    have hcs : sep ∉ cs := fun e => h (by simp [e])
    simp [splitChars, hc, ih hcs]

theorem Split_three (h c e : String) (hh : '.' ∉ h.data) (hc : '.' ∉ c.data)
    (he : '.' ∉ e.data) : Split (h ++ "." ++ c ++ "." ++ e) '.' = [h, c, e] := by
  have hd : (h ++ "." ++ c ++ "." ++ e).data = h.data ++ '.' :: (c.data ++ '.' :: e.data) := by
    simp [String.data_append]
  simp [Split, hd, splitChars_append _ _ _ hh, splitChars_append _ _ _ hc,
    splitChars_of_not_mem _ _ he]

theorem GetSigningMethod_Alg (m : SigningMethod) : GetSigningMethod m.Alg = some m := by
  cases m <;> decide

/-! ## The credential authority -/

/-- The segments of a signed token and the facts the faithful primitives give on them. -/
theorem SignedString_segments (lib : JWTLib) (method : SigningMethod) (claims : UserClaims)
    (key tok : String) (hsigned : SignedString lib method claims key = some tok)
    (hf : lib.Faithful method claims key) :
    ∃ h c sig, tok = h ++ "." ++ c ++ "." ++ lib.EncodeSegment sig ∧
      Split tok '.' = [h, c, lib.EncodeSegment sig] ∧
      lib.unmarshalHeader h = some ⟨some method.Alg, some "JWT"⟩ ∧
      lib.unmarshalClaims c = some claims ∧
      lib.DecodeSegment (lib.EncodeSegment sig) = some sig ∧
      lib.Verify method (h ++ "." ++ c) sig key = true := by
  unfold SignedString at hsigned
  cases hh : lib.marshalHeader ⟨some method.Alg, some "JWT"⟩ with
  | none => simp [hh] at hsigned
  | some h =>
    cases hc : lib.marshalClaims claims with
    | none => simp [hh, hc] at hsigned
    | some c =>
      cases hs : lib.Sign method (h ++ "." ++ c) key with
      | none => simp [hh, hc, hs] at hsigned
      | some sig =>
        simp only [hh, hc, hs, Option.some.injEq] at hsigned
        obtain ⟨d1, d2, d3, f1, f2, f3, f4⟩ := hf h c sig hh hc hs
        exact ⟨h, c, sig, hsigned.symm, by rw [← hsigned]; exact Split_three h c _ d1 d2 d3,
          f1, f2, f3, f4⟩

/-- The parser on a token signed under an HMAC method with the configured secret: the
outcome is decided by the validation of the claims alone. -/
theorem ParseWithClaims_signed (lib : JWTLib) (cfg : Config) (now : Time)
    (method : SigningMethod) (claims : UserClaims) (tok : String)
    (hm : method.isHMAC = true)
    (hsigned : SignedString lib method claims cfg.JWTSecret = some tok)
    (hf : lib.Faithful method claims cfg.JWTSecret) :
    ∃ sig, ParseWithClaims lib tok (keyFunc cfg) now =
      match Validate now claims with
      | [] => .ok ⟨tok, method, ⟨some method.Alg, some "JWT"⟩, claims, sig, true⟩
      | e :: es => .error (.ErrTokenInvalidClaims (e :: es)) := by
  obtain ⟨h, c, sig, -, hsplit, f1, f2, f3, f4⟩ :=
    SignedString_segments lib method claims cfg.JWTSecret tok hsigned hf
  refine ⟨sig, ?_⟩
  unfold ParseWithClaims
  simp only [hsplit, f1, f2, f3, GetSigningMethod_Alg, keyFunc, hm, if_true, f4]

/-- ValidateToken on a token signed under an HMAC method with the configured secret. -/
theorem ValidateToken_signed (lib : JWTLib) (cfg : Config) (now : Time)
    (method : SigningMethod) (claims : UserClaims) (tok : String)
    (hm : method.isHMAC = true)
    (hsigned : SignedString lib method claims cfg.JWTSecret = some tok)
    (hf : lib.Faithful method claims cfg.JWTSecret) :
    ValidateToken lib cfg now tok =
      if Validate now claims = [] then .ok claims else .error ErrUnauthorized := by
  obtain ⟨sig, hp⟩ := ParseWithClaims_signed lib cfg now method claims tok hm hsigned hf
  unfold ValidateToken
  rw [hp]
  cases hv : Validate now claims with
  | nil => simp
  | cons e es => simp

/-- ValidateToken returns claims or exactly ErrUnauthorized. -/
theorem ValidateToken_ok_or_unauthorized (lib : JWTLib) (cfg : Config) (now : Time)
    (tok : String) :
    (∃ c, ValidateToken lib cfg now tok = .ok c) ∨
      ValidateToken lib cfg now tok = .error ErrUnauthorized := by
  unfold ValidateToken
  cases ParseWithClaims lib tok (keyFunc cfg) now with
  | error e => exact Or.inr rfl
  | ok t =>
    cases hv : t.Valid with
    | true => exact Or.inl ⟨t.Claims, by simp [hv]⟩
    | false => exact Or.inr (by simp [hv])

theorem GetSigningMethod_eq_some (alg : String) (m : SigningMethod)
    (h : GetSigningMethod alg = some m) : alg = m.Alg := by
  have := List.find?_some h
  exact (by simpa using this : m.Alg = alg).symm

/-- What an accepted token went through: three segments, a header whose alg names an
HMAC method, claims that decode and pass validation. -/
theorem ParseWithClaims_ok (lib : JWTLib) (cfg : Config) (now : Time) (tok : String)
    (t : Token) (h : ParseWithClaims lib tok (keyFunc cfg) now = .ok t) :
    advertisedAlg lib tok = some t.Method.Alg ∧ t.Method.isHMAC = true ∧
      unverifiedClaims lib tok = some t.Claims ∧ Validate now t.Claims = [] ∧
      t.Valid = true := by
  unfold ParseWithClaims at h
  unfold advertisedAlg unverifiedClaims
  split at h
  · rename_i p0 p1 p2 hsplit
    split at h
    · exact absurd h (by simp)
    · rename_i header hh
      split at h
      · exact absurd h (by simp)
      · rename_i claims hc
        split at h
        · exact absurd h (by simp)
        · rename_i alg ha
          split at h
          · exact absurd h (by simp)
          · rename_i method hm
            split at h
            · exact absurd h (by simp)
            · rename_i sig hs
              simp only [keyFunc] at h
              cases hmac : method.isHMAC with
              | false => simp [hmac] at h
              | true =>
                simp only [hmac, if_true] at h
                split at h
                · split at h
                  · rename_i hv
                    simp only [Except.ok.injEq] at h
                    subst h
                    simp [hh, ha, hc, hv, hmac, GetSigningMethod_eq_some alg method hm]
                  · exact absurd h (by simp)
                · exact absurd h (by simp)
  · exact absurd h (by simp)

/-- C1 (amended): ValidateToken rejects with ErrUnauthorized every token whose header
advertises a signing algorithm outside the HMAC family HS256, HS384, HS512 (a token that
advertises none included); a token signed with the configured secret under any method of
that family, HS384 and HS512 included, whose claims pass validation is accepted and its
claims are returned. -/
theorem ValidateToken_rejects_outside_HMAC_family (lib : JWTLib) (cfg : Config)
    (now : Time) :
    (∀ tok, advertisedAlg lib tok ∉ [some "HS256", some "HS384", some "HS512"] →
      ValidateToken lib cfg now tok = .error ErrUnauthorized) ∧
    (∀ method claims tok, method ∈ [SigningMethod.HS256, .HS384, .HS512] →
      SignedString lib method claims cfg.JWTSecret = some tok →
      lib.Faithful method claims cfg.JWTSecret → Validate now claims = [] →
      advertisedAlg lib tok = some method.Alg ∧
        ValidateToken lib cfg now tok = .ok claims) := by
  constructor
  · intro tok halg
    rcases ValidateToken_ok_or_unauthorized lib cfg now tok with ⟨c, hc⟩ | he
    · exfalso
      unfold ValidateToken at hc
      cases hp : ParseWithClaims lib tok (keyFunc cfg) now with
      | error e => simp [hp] at hc
      | ok t =>
        obtain ⟨ha, hm, -⟩ := ParseWithClaims_ok lib cfg now tok t hp
        apply halg
        rw [ha]
        cases hmeth : t.Method <;> simp [hmeth, SigningMethod.isHMAC] at hm <;>
          simp [SigningMethod.Alg]
    · exact he
  · intro method claims tok hmem hsigned hf hv
    have hm : method.isHMAC = true := by
      simp only [List.mem_cons, List.mem_singleton, List.not_mem_nil, or_false] at hmem
      rcases hmem with h | h | h <;> subst h <;> rfl
    refine ⟨?_, ?_⟩
    · obtain ⟨h, c, sig, -, hsplit, f1, -⟩ :=
        SignedString_segments lib method claims cfg.JWTSecret tok hsigned hf
      simp [advertisedAlg, hsplit, f1]
    · rw [ValidateToken_signed lib cfg now method claims tok hm hsigned hf]
      simp [hv]

/-- The reference primitives are faithful on the example claims. -/
theorem refLib_faithful_example (method : SigningMethod) (hm : method.isHMAC = true) :
    refLib.Faithful method exampleClaims "k" := by
  cases method <;>
    first
    | exact absurd hm (by decide)
    | (intro h c sig hh hc hs
       cases hh; cases hc; cases hs
       decide)

/-- Witness for C1 (amended): under the reference primitives a token advertising RS256
is rejected, and the example claims signed under HS512 with the configured secret are
accepted one second before they expire. -/
theorem ValidateToken_rejects_outside_HMAC_family_witness :
    (advertisedAlg refLib exampleTokenRS256 = some "RS256" ∧
      ValidateToken refLib exampleCfg (4 * Second) exampleTokenRS256 =
        .error ErrUnauthorized) ∧
    (advertisedAlg refLib (exampleToken "HS512" "k") = some "HS512" ∧
      ValidateToken refLib exampleCfg (4 * Second) (exampleToken "HS512" "k") =
        .ok exampleClaims) :=
  ⟨⟨by decide,
    (ValidateToken_rejects_outside_HMAC_family refLib exampleCfg (4 * Second)).1
      exampleTokenRS256 (by decide)⟩,
   (ValidateToken_rejects_outside_HMAC_family refLib exampleCfg (4 * Second)).2
      .HS512 exampleClaims (exampleToken "HS512" "k") (by decide) (by decide)
      (refLib_faithful_example .HS512 rfl) (by decide)⟩

/-- Counterexample to C1 as stated: the example claims signed with the configured secret
under HS384 form a token whose header advertises HS384, not HS256, and ValidateToken
accepts it instead of answering ErrUnauthorized. -/
theorem ValidateToken_accepts_HS384 :
    SignedString refLib .HS384 exampleClaims exampleCfg.JWTSecret =
        some (exampleToken "HS384" "k") ∧
      advertisedAlg refLib (exampleToken "HS384" "k") = some "HS384" ∧
      ValidateToken refLib exampleCfg (4 * Second) (exampleToken "HS384" "k") =
        .ok exampleClaims ∧
      ValidateToken refLib exampleCfg (4 * Second) (exampleToken "HS384" "k") ≠
        .error ErrUnauthorized := by
  decide

/-- C2: round trip.  For every user id, email, role and configuration (a positive expiry
included), if GenerateToken returns a token on which the primitives are faithful, then
ValidateToken with the same configuration at any instant before the token's expires-at
succeeds, and the claims it returns are the ones GenerateToken encoded: same UserID,
Email and Role, issuer student-portal-api, issued-at and expires-at equal to the two
instants GenerateToken computed, at whole-second precision. -/
theorem GenerateToken_ValidateToken_roundtrip (lib : JWTLib) (cfg : Config)
    (now₁ now₂ now : Time) (userID : Int) (email role tok : String)
    (hgen : GenerateToken lib cfg now₁ now₂ userID email role = .ok tok)
    (hf : lib.Faithful .HS256 (issuedClaims cfg now₁ now₂ userID email role) cfg.JWTSecret)
    (hbefore : now < NewNumericDate (now₁ + cfg.JWTExpiry)) :
    ∃ c, ValidateToken lib cfg now tok = .ok c ∧
      c.UserID = userID ∧ c.Email = email ∧ c.Role = role ∧
      c.Registered.Issuer = "student-portal-api" ∧
      c.Registered.IssuedAt = some (NewNumericDate now₂) ∧
      c.Registered.ExpiresAt = some (NewNumericDate (now₁ + cfg.JWTExpiry)) ∧
      c = issuedClaims cfg now₁ now₂ userID email role := by
  refine ⟨issuedClaims cfg now₁ now₂ userID email role, ?_, rfl, rfl, rfl, rfl, rfl, rfl, rfl⟩
  have hsigned : SignedString lib .HS256 (issuedClaims cfg now₁ now₂ userID email role)
      cfg.JWTSecret = some tok := by
    unfold GenerateToken at hgen
    cases hs : SignedString lib .HS256 (issuedClaims cfg now₁ now₂ userID email role)
        cfg.JWTSecret with
    | none => simp [hs] at hgen
    | some t => simpa [hs] using hgen
  rw [ValidateToken_signed lib cfg now .HS256 _ tok rfl hsigned hf]
  have hv : Validate now (issuedClaims cfg now₁ now₂ userID email role) = [] := by
    simp [Validate, issuedClaims, hbefore]
  simp [hv]

/-- Witness for C2: under the reference primitives and a two-second expiry, the token
GenerateToken returns for user 7 just after second 3 is accepted at second 4 and yields
the example claims. -/
theorem GenerateToken_ValidateToken_roundtrip_witness :
    0 < exampleCfg.JWTExpiry ∧
      GenerateToken refLib exampleCfg (3 * Second + 5) (3 * Second + 7) 7 "a@b.c" "admin" =
        .ok (exampleToken "HS256" "k") ∧
      ∃ c, ValidateToken refLib exampleCfg (4 * Second) (exampleToken "HS256" "k") = .ok c ∧
        c.UserID = 7 ∧ c.Email = "a@b.c" ∧ c.Role = "admin" ∧
        c.Registered.Issuer = "student-portal-api" ∧
        c.Registered.IssuedAt = some (NewNumericDate (3 * Second + 7)) ∧
        c.Registered.ExpiresAt =
          some (NewNumericDate (3 * Second + 5 + exampleCfg.JWTExpiry)) ∧
        c = issuedClaims exampleCfg (3 * Second + 5) (3 * Second + 7) 7 "a@b.c" "admin" :=
  ⟨by decide, by decide,
    GenerateToken_ValidateToken_roundtrip refLib exampleCfg (3 * Second + 5)
      (3 * Second + 7) (4 * Second) 7 "a@b.c" "admin" (exampleToken "HS256" "k")
      (by decide) (refLib_faithful_example .HS256 rfl) (by decide)⟩

/-- C3: for every input string ValidateToken either returns claims (and no error) or
returns no claims together with exactly ErrUnauthorized, whose status is 401 and whose
message is Authentication required; whatever error kind the parser reports (malformed
input, unverifiable algorithm, bad signature, invalid claims), the returned error is that
same value, so two rejected inputs give equal results. -/
theorem ValidateToken_single_error (lib : JWTLib) (cfg : Config) (now : Time) :
    (∀ tok, (∃ c, ValidateToken lib cfg now tok = .ok c) ∨
      ValidateToken lib cfg now tok = .error ErrUnauthorized) ∧
    (∀ tok e, ParseWithClaims lib tok (keyFunc cfg) now = .error e →
      ValidateToken lib cfg now tok = .error ErrUnauthorized) ∧
    (∀ tok₁ tok₂ e₁ e₂, ParseWithClaims lib tok₁ (keyFunc cfg) now = .error e₁ →
      ParseWithClaims lib tok₂ (keyFunc cfg) now = .error e₂ →
      ValidateToken lib cfg now tok₁ = ValidateToken lib cfg now tok₂) ∧
    ErrUnauthorized = ⟨401, "Authentication required"⟩ := by
  have key : ∀ tok e, ParseWithClaims lib tok (keyFunc cfg) now = .error e →
      ValidateToken lib cfg now tok = .error ErrUnauthorized := by
    intro tok e h
    simp [ValidateToken, h]
  exact ⟨ValidateToken_ok_or_unauthorized lib cfg now, key,
    fun tok₁ tok₂ e₁ e₂ h₁ h₂ => (key tok₁ e₁ h₁).trans (key tok₂ e₂ h₂).symm, rfl⟩

/-- Witness for C3: under the reference primitives the four causes occur, each with its
own parser error, and each gives the same result: a string that is no token, a token
advertising RS256, a token signed with another secret, and a token read at its
expires-at. -/
theorem ValidateToken_single_error_witness :
    (ParseWithClaims refLib "not-a-token" (keyFunc exampleCfg) (5 * Second) =
        .error .ErrTokenMalformed ∧
      ValidateToken refLib exampleCfg (5 * Second) "not-a-token" = .error ErrUnauthorized) ∧
    (ParseWithClaims refLib exampleTokenRS256 (keyFunc exampleCfg) (5 * Second) =
        .error .ErrTokenUnverifiable ∧
      ValidateToken refLib exampleCfg (5 * Second) exampleTokenRS256 =
        .error ErrUnauthorized) ∧
    (ParseWithClaims refLib (exampleToken "HS256" "z") (keyFunc exampleCfg) (5 * Second) =
        .error .ErrTokenSignatureInvalid ∧
      ValidateToken refLib exampleCfg (5 * Second) (exampleToken "HS256" "z") =
        .error ErrUnauthorized) ∧
    (ParseWithClaims refLib (exampleToken "HS256" "k") (keyFunc exampleCfg) (5 * Second) =
        .error (.ErrTokenInvalidClaims [.ErrTokenExpired]) ∧
      ValidateToken refLib exampleCfg (5 * Second) (exampleToken "HS256" "k") =
        .error ErrUnauthorized) ∧
    ValidateToken refLib exampleCfg (5 * Second) "not-a-token" =
      ValidateToken refLib exampleCfg (5 * Second) (exampleToken "HS256" "k") :=
  ⟨⟨by decide, (ValidateToken_single_error refLib exampleCfg (5 * Second)).2.1
      "not-a-token" .ErrTokenMalformed (by decide)⟩,
   ⟨by decide, (ValidateToken_single_error refLib exampleCfg (5 * Second)).2.1
      exampleTokenRS256 .ErrTokenUnverifiable (by decide)⟩,
   ⟨by decide, (ValidateToken_single_error refLib exampleCfg (5 * Second)).2.1
      (exampleToken "HS256" "z") .ErrTokenSignatureInvalid (by decide)⟩,
   ⟨by decide, (ValidateToken_single_error refLib exampleCfg (5 * Second)).2.1
      (exampleToken "HS256" "k") (.ErrTokenInvalidClaims [.ErrTokenExpired]) (by decide)⟩,
   (ValidateToken_single_error refLib exampleCfg (5 * Second)).2.2.1
      "not-a-token" (exampleToken "HS256" "k") .ErrTokenMalformed
      (.ErrTokenInvalidClaims [.ErrTokenExpired]) (by decide) (by decide)⟩

/-- C4: for every token whose claims carry an expires-at that is less than or equal to
the current time, in particular for every such token signed with the configured secret,
ValidateToken fails, and the error is ErrUnauthorized and no other. -/
theorem ValidateToken_expired (lib : JWTLib) (cfg : Config) (now : Time) (tok : String)
    (claims : UserClaims) (exp : Time)
    (hclaims : unverifiedClaims lib tok = some claims)
    (hexp : claims.Registered.ExpiresAt = some exp) (hle : exp ≤ now) :
    ValidateToken lib cfg now tok = .error ErrUnauthorized := by
  rcases ValidateToken_ok_or_unauthorized lib cfg now tok with ⟨c, hc⟩ | he
  · exfalso
    unfold ValidateToken at hc
    cases hp : ParseWithClaims lib tok (keyFunc cfg) now with
    | error e => simp [hp] at hc
    | ok t =>
      obtain ⟨-, -, hcl, hv, -⟩ := ParseWithClaims_ok lib cfg now tok t hp
      rw [hclaims] at hcl
      cases hcl
      have hlt : ¬ now < exp := not_lt.mpr hle
      simp [Validate, hexp, hlt] at hv
  · exact he

/-- Witness for C4: the example token, signed with the configured secret and expiring at
second 5, is accepted at second 4 and rejected with ErrUnauthorized at second 5
exactly. -/
theorem ValidateToken_expired_witness :
    SignedString refLib .HS256 exampleClaims exampleCfg.JWTSecret =
        some (exampleToken "HS256" "k") ∧
      ValidateToken refLib exampleCfg (4 * Second) (exampleToken "HS256" "k") =
        .ok exampleClaims ∧
      ValidateToken refLib exampleCfg (5 * Second) (exampleToken "HS256" "k") =
        .error ErrUnauthorized :=
  ⟨by decide, by decide,
    ValidateToken_expired refLib exampleCfg (5 * Second) (exampleToken "HS256" "k")
      exampleClaims (5 * Second) (by decide) (by decide) (by decide)⟩

theorem trunc_lt_iff (a y : Int) :
    a - a % 1000000000 < y - y % 1000000000 ↔ a - a % 1000000000 + 1000000000 ≤ y := by
  constructor <;> intro h <;> omega

theorem trunc_le (a : Int) : a - a % 1000000000 ≤ a := by omega

/-- Rounding down to a whole second, compared with a whole second. -/
theorem NewNumericDate_lt_iff (a y : Time) :
    NewNumericDate a < NewNumericDate y ↔ NewNumericDate a + Second ≤ y :=
  trunc_lt_iff a y

theorem NewNumericDate_le (a : Time) : NewNumericDate a ≤ a := trunc_le a

/-- C5 (amended): the claims GenerateToken builds carry expires-at equal to the first
clock reading plus cfg.JWTExpiry and issued-at equal to the second clock reading, both
rounded down to the whole second, and expires-at > issued-at holds exactly when the
first reading plus cfg.JWTExpiry reaches the second after the issued-at second; it holds
for every expiry of at least one second plus the time between the two readings. -/
theorem issuedClaims_expiry_after_issue_iff (cfg : Config) (now₁ now₂ : Time)
    (userID : Int) (email role : String) :
    (issuedClaims cfg now₁ now₂ userID email role).Registered.ExpiresAt =
        some (NewNumericDate (now₁ + cfg.JWTExpiry)) ∧
      (issuedClaims cfg now₁ now₂ userID email role).Registered.IssuedAt =
        some (NewNumericDate now₂) ∧
      (NewNumericDate now₂ < NewNumericDate (now₁ + cfg.JWTExpiry) ↔
        NewNumericDate now₂ + Second ≤ now₁ + cfg.JWTExpiry) ∧
      (now₂ - now₁ + Second ≤ cfg.JWTExpiry →
        NewNumericDate now₂ < NewNumericDate (now₁ + cfg.JWTExpiry)) := by
  refine ⟨rfl, rfl, NewNumericDate_lt_iff _ _, fun h => ?_⟩
  rw [NewNumericDate_lt_iff]
  have h1 : NewNumericDate now₂ ≤ now₂ := NewNumericDate_le _
  exact le_trans (add_le_add_right h1 _) (by linarith)

/-- Witness for C5 (amended): with an expiry of two seconds and two clock readings two
nanoseconds apart, issued-at is second 3 and expires-at is second 5. -/
theorem issuedClaims_expiry_after_issue_iff_witness :
    (issuedClaims exampleCfg (3 * Second + 5) (3 * Second + 7) 7 "a@b.c" "admin").Registered
        = exampleClaims.Registered ∧
      NewNumericDate (3 * Second + 7) <
        NewNumericDate (3 * Second + 5 + exampleCfg.JWTExpiry) :=
  ⟨by decide,
    (issuedClaims_expiry_after_issue_iff exampleCfg (3 * Second + 5) (3 * Second + 7) 7
      "a@b.c" "admin").2.2.2 (by decide)⟩

/-- Counterexample to C5 as stated: with cfg.JWTExpiry equal to zero and both clock
readings at second 5, the claims GenerateToken builds have expires-at equal to issued-at,
so expires-at > issued-at fails; the same happens with an expiry of half a second. -/
theorem issuedClaims_zero_expiry :
    (issuedClaims ⟨"k", 0⟩ (5 * Second) (5 * Second) 7 "a@b.c" "admin").Registered.ExpiresAt
        = some (5 * Second) ∧
      (issuedClaims ⟨"k", 0⟩ (5 * Second) (5 * Second) 7 "a@b.c" "admin").Registered.IssuedAt
        = some (5 * Second) ∧
      ¬ (NewNumericDate (5 * Second) < NewNumericDate (5 * Second + 0)) ∧
      ¬ (NewNumericDate (5 * Second) < NewNumericDate (5 * Second + 500000000)) := by
  decide

/-! ## The authentication interceptor -/

theorem splitNChars_two_append (sep : Char) (a b : List Char) (h : sep ∉ a) :
    splitNChars sep (a ++ sep :: b) 2 = [a, b] := by
  induction a with
  | nil => simp [splitNChars]
  | cons c cs ih =>
    have hc : c ≠ sep := fun e => h (by simp [e])
    have hcs : sep ∉ cs := fun e => h (by simp [e])
    simp [splitNChars, hc, ih hcs]

theorem splitNChars_two_eq (sep : Char) (cs a b : List Char)
    (h : splitNChars sep cs 2 = [a, b]) : cs = a ++ sep :: b := by
  induction cs generalizing a with
  | nil => simp [splitNChars] at h
  | cons c cs ih =>
    by_cases hc : c = sep
    · simp [splitNChars, hc] at h
      obtain ⟨rfl, rfl⟩ := h
      simp [hc]
    · simp only [splitNChars, hc, if_false] at h
      cases hs : splitNChars sep cs 2 with
      | nil => simp [hs] at h
      | cons p ps =>
        simp only [hs, List.cons.injEq] at h
        obtain ⟨rfl, rfl⟩ := h
        simp [ih p hs]

theorem SplitN_bearer (t : String) : SplitN ("Bearer " ++ t) ' ' 2 = ["Bearer", t] := by
  have hd : ("Bearer " ++ t).data = "Bearer".data ++ ' ' :: t.data := by
    simp [String.data_append]
  unfold SplitN
  rw [hd, splitNChars_two_append ' ' "Bearer".data t.data (by decide)]
  rfl

theorem SplitN_eq_bearer (s p1 : String) (h : SplitN s ' ' 2 = ["Bearer", p1]) :
    s = "Bearer " ++ p1 := by
  unfold SplitN at h
  cases hs : splitNChars ' ' s.data 2 with
  | nil => simp [hs] at h
  | cons a rest =>
    cases rest with
    | nil => simp [hs] at h
    | cons b rest' =>
      cases rest' with
      | nil =>
        simp only [hs, List.map_cons, List.map_nil, List.cons.injEq, and_true] at h
        have hd := splitNChars_two_eq ' ' s.data a b hs
        obtain ⟨h1, h2⟩ := h
        have ha : a = "Bearer".data := congrArg String.data h1
        subst h2
        apply String.ext
        rw [hd, ha]
        simp [String.data_append]
      | cons c rest'' => simp [hs] at h

/-- AuthMiddleware on a header that reads Bearer, one space, and a rest. -/
theorem AuthMiddleware_bearer (lib : JWTLib) (cfg : Config) (now : Time) (r : Request)
    (t : String) (h : headerGet r.Header "Authorization" = "Bearer " ++ t) :
    AuthMiddleware lib cfg now r =
      .validateToken t ::
        match ValidateToken lib cfg now t with
        | .error err => handleError (.app err)
        | .ok claims =>
          [.serveNext (r.WithContext (WithValue r.ctx UserClaimsKey (.userClaims claims)))] := by
  have hne : ¬ ("Bearer " ++ t = "") := by
    intro e
    have := congrArg String.data e
    simp [String.data_append] at this
  unfold AuthMiddleware
  simp only [h, hne, if_false, SplitN_bearer, ne_eq, not_true_eq_false]

/-- AuthMiddleware on any other header. -/
theorem AuthMiddleware_not_bearer (lib : JWTLib) (cfg : Config) (now : Time) (r : Request)
    (h : ¬ ∃ t, headerGet r.Header "Authorization" = "Bearer " ++ t) :
    AuthMiddleware lib cfg now r = handleError (.app ErrUnauthorized) := by
  unfold AuthMiddleware
  simp only
  split
  · rfl
  · split
    · rename_i p0 p1 hsplit
      by_cases hp : p0 = "Bearer"
      · subst hp
        exact absurd ⟨p1, SplitN_eq_bearer _ p1 hsplit⟩ h
      · simp [hp]
    · rfl

/-- A string whose seventh character is not a space is not Bearer, a space and a rest. -/
theorem not_bearer_of_seventh (s : String) (h : s.data.get? 6 ≠ some ' ') :
    ¬ ∃ t, s = "Bearer " ++ t := by
  rintro ⟨t, rfl⟩
  simp [String.data_append] at h

/-- C6 (amended): AuthMiddleware answers ErrUnauthorized without calling ValidateToken
and without calling the next handler for every Authorization header that is not the
literal Bearer followed by one space and a rest (the empty header, a header without a
space, a header whose text before the first space is not exactly Bearer); for a header
that is Bearer, one space and a rest, it calls ValidateToken once, with the whole rest,
further spaces included. -/
theorem AuthMiddleware_header_form (lib : JWTLib) (cfg : Config) (now : Time)
    (r : Request) :
    ((¬ ∃ t, headerGet r.Header "Authorization" = "Bearer " ++ t) →
      AuthMiddleware lib cfg now r = handleError (.app ErrUnauthorized) ∧
        validateCalls (AuthMiddleware lib cfg now r) = [] ∧
        nextRequest (AuthMiddleware lib cfg now r) = none ∧
        statusWritten (AuthMiddleware lib cfg now r) = some 401) ∧
    (∀ t, headerGet r.Header "Authorization" = "Bearer " ++ t →
      validateCalls (AuthMiddleware lib cfg now r) = [t]) := by
  constructor
  · intro h
    rw [AuthMiddleware_not_bearer lib cfg now r h]
    exact ⟨rfl, rfl, rfl, rfl⟩
  · intro t h
    rw [AuthMiddleware_bearer lib cfg now r t h]
    cases ValidateToken lib cfg now t with
    | error e => rfl
    | ok c => rfl

/-- Witness for C6 (amended): the headers Bearer-tab-a, bearer a, Bearer and the empty
header are answered with ErrUnauthorized without a call of ValidateToken, and the header
Bearer a.b.c leads to one call of ValidateToken with a.b.c. -/
theorem AuthMiddleware_header_form_witness :
    (AuthMiddleware refLib exampleCfg 0 (requestWith "Bearer\ta") =
        handleError (.app ErrUnauthorized) ∧
      validateCalls (AuthMiddleware refLib exampleCfg 0 (requestWith "Bearer\ta")) = [] ∧
      nextRequest (AuthMiddleware refLib exampleCfg 0 (requestWith "Bearer\ta")) = none ∧
      statusWritten (AuthMiddleware refLib exampleCfg 0 (requestWith "Bearer\ta")) =
        some 401) ∧
    validateCalls (AuthMiddleware refLib exampleCfg 0 (requestWith "bearer a")) = [] ∧
    validateCalls (AuthMiddleware refLib exampleCfg 0 (requestWith "Bearer")) = [] ∧
    validateCalls (AuthMiddleware refLib exampleCfg 0 (requestWith "")) = [] ∧
    validateCalls (AuthMiddleware refLib exampleCfg 0 (requestWith "Bearer a.b.c")) =
      ["a.b.c"] :=
  ⟨(AuthMiddleware_header_form refLib exampleCfg 0 (requestWith "Bearer\ta")).1
      (not_bearer_of_seventh _ (by decide)),
    by decide, by decide, by decide,
    (AuthMiddleware_header_form refLib exampleCfg 0 (requestWith "Bearer a.b.c")).2
      "a.b.c" (by decide)⟩

/-- Counterexample to C6 as stated: the header Bearer a b has three whitespace-separated
tokens and the header made of Bearer and one space has one, so neither consists of exactly
two tokens, yet AuthMiddleware calls ValidateToken for both, with the rest after the
first space. -/
theorem AuthMiddleware_validates_three_tokens :
    whitespaceTokens "Bearer a b" = ["Bearer", "a", "b"] ∧
      validateCalls (AuthMiddleware refLib exampleCfg 0 (requestWith "Bearer a b")) =
        ["a b"] ∧
      whitespaceTokens "Bearer " = ["Bearer"] ∧
      validateCalls (AuthMiddleware refLib exampleCfg 0 (requestWith "Bearer ")) = [""] := by
  decide

/-- The effects of handleError hold no call of the next handler. -/
theorem serveNext_not_mem_handleError (err : GoError) (r' : Request) :
    Effect.serveNext r' ∉ handleError err := by
  simp [handleError]

/-- C7 (amended): AuthMiddleware calls the next handler if and only if the header is the
literal Bearer, exactly one space, and a token string (everything after that space) on
which ValidateToken succeeds; in that case the next handler receives the request with a
context from which GetUserClaims returns exactly the claims ValidateToken returned, and
in every other case the response status is 401 and the next handler is not called. -/
theorem AuthMiddleware_next_iff (lib : JWTLib) (cfg : Config) (now : Time) (r : Request) :
    ((∃ r', Effect.serveNext r' ∈ AuthMiddleware lib cfg now r) ↔
      ∃ t c, headerGet r.Header "Authorization" = "Bearer " ++ t ∧
        ValidateToken lib cfg now t = .ok c) ∧
    (∀ t c, headerGet r.Header "Authorization" = "Bearer " ++ t →
      ValidateToken lib cfg now t = .ok c →
      ∃ r', AuthMiddleware lib cfg now r = [.validateToken t, .serveNext r'] ∧
        GetUserClaims r'.ctx = (some c, []) ∧
        r' = r.WithContext (WithValue r.ctx UserClaimsKey (.userClaims c))) ∧
    ((¬ ∃ t c, headerGet r.Header "Authorization" = "Bearer " ++ t ∧
        ValidateToken lib cfg now t = .ok c) →
      statusWritten (AuthMiddleware lib cfg now r) = some 401 ∧
        ∀ r', Effect.serveNext r' ∉ AuthMiddleware lib cfg now r) := by
  have hok : ∀ t c, headerGet r.Header "Authorization" = "Bearer " ++ t →
      ValidateToken lib cfg now t = .ok c →
      AuthMiddleware lib cfg now r = [.validateToken t,
        .serveNext (r.WithContext (WithValue r.ctx UserClaimsKey (.userClaims c)))] := by
    intro t c h hv
    rw [AuthMiddleware_bearer lib cfg now r t h, hv]
  have hbad : (¬ ∃ t c, headerGet r.Header "Authorization" = "Bearer " ++ t ∧
        ValidateToken lib cfg now t = .ok c) →
      statusWritten (AuthMiddleware lib cfg now r) = some 401 ∧
        ∀ r', Effect.serveNext r' ∉ AuthMiddleware lib cfg now r := by
    intro hn
    by_cases hb : ∃ t, headerGet r.Header "Authorization" = "Bearer " ++ t
    · obtain ⟨t, ht⟩ := hb
      rcases ValidateToken_ok_or_unauthorized lib cfg now t with ⟨c, hc⟩ | he
      · exact absurd ⟨t, c, ht, hc⟩ hn
      · rw [AuthMiddleware_bearer lib cfg now r t ht, he]
        exact ⟨rfl, fun r' => by simp [handleError]⟩
    · rw [AuthMiddleware_not_bearer lib cfg now r hb]
      exact ⟨rfl, serveNext_not_mem_handleError _⟩
  refine ⟨⟨?_, ?_⟩, ?_, hbad⟩
  · rintro ⟨r', hr'⟩
    by_contra hn
    exact (hbad hn).2 r' hr'
  · rintro ⟨t, c, ht, hc⟩
    exact ⟨r.WithContext (WithValue r.ctx UserClaimsKey (.userClaims c)),
      by rw [hok t c ht hc]; simp⟩
  · intro t c ht hc
    refine ⟨_, hok t c ht hc, ?_, rfl⟩
    simp [GetUserClaims, Request.WithContext, WithValue, Value]

/-- Witness for C7 (amended): with the example token in the header, one second before it expires,
the next handler is called and GetUserClaims returns the example claims from the context
it receives; at the expiry instant the status is 401 and the next handler is not
called. -/
theorem AuthMiddleware_next_iff_witness :
    (∃ r', AuthMiddleware refLib exampleCfg (4 * Second)
          (requestWith ("Bearer " ++ exampleToken "HS256" "k")) =
        [.validateToken (exampleToken "HS256" "k"), .serveNext r'] ∧
      GetUserClaims r'.ctx = (some exampleClaims, []) ∧
      r' = (requestWith ("Bearer " ++ exampleToken "HS256" "k")).WithContext
        (WithValue [] UserClaimsKey (.userClaims exampleClaims))) ∧
    (statusWritten (AuthMiddleware refLib exampleCfg (5 * Second)
        (requestWith ("Bearer " ++ exampleToken "HS256" "k"))) = some 401 ∧
      ∀ r', Effect.serveNext r' ∉ AuthMiddleware refLib exampleCfg (5 * Second)
        (requestWith ("Bearer " ++ exampleToken "HS256" "k"))) :=
  ⟨(AuthMiddleware_next_iff refLib exampleCfg (4 * Second)
      (requestWith ("Bearer " ++ exampleToken "HS256" "k"))).2.1
      (exampleToken "HS256" "k") exampleClaims rfl (by decide),
   (AuthMiddleware_next_iff refLib exampleCfg (5 * Second)
      (requestWith ("Bearer " ++ exampleToken "HS256" "k"))).2.2
      (by
        rintro ⟨t, c, ht, hc⟩
        have hd := congrArg String.data ht
        simp only [requestWith, headerGet, if_true, String.data_append, List.append_cancel_left_eq] at hd
        have ht' : t = exampleToken "HS256" "k" := String.ext hd.symm
        subst ht'
        have he : ValidateToken refLib exampleCfg (5 * Second) (exampleToken "HS256" "k") =
            .error ErrUnauthorized := by decide
        rw [he] at hc
        cases hc)⟩

/-- Counterexample to C7 as stated: the header made of Bearer, a tab and the example
token, and the header made of Bearer, two spaces and the example token, each consist of
exactly two whitespace-separated tokens of which the first is Bearer, and ValidateToken
succeeds on the token; yet AuthMiddleware answers 401 and does not call the next
handler: it never calls ValidateToken for the first, and calls it with the token string
that starts with a space for the second. -/
theorem AuthMiddleware_rejects_other_separators :
    ValidateToken refLib exampleCfg (4 * Second) (exampleToken "HS256" "k") =
        .ok exampleClaims ∧
      (twoTokenBearer ("Bearer\t" ++ exampleToken "HS256" "k") ∧
        statusWritten (AuthMiddleware refLib exampleCfg (4 * Second)
          (requestWith ("Bearer\t" ++ exampleToken "HS256" "k"))) = some 401 ∧
        nextRequest (AuthMiddleware refLib exampleCfg (4 * Second)
          (requestWith ("Bearer\t" ++ exampleToken "HS256" "k"))) = none ∧
        validateCalls (AuthMiddleware refLib exampleCfg (4 * Second)
          (requestWith ("Bearer\t" ++ exampleToken "HS256" "k"))) = []) ∧
      (twoTokenBearer ("Bearer  " ++ exampleToken "HS256" "k") ∧
        statusWritten (AuthMiddleware refLib exampleCfg (4 * Second)
          (requestWith ("Bearer  " ++ exampleToken "HS256" "k"))) = some 401 ∧
        nextRequest (AuthMiddleware refLib exampleCfg (4 * Second)
          (requestWith ("Bearer  " ++ exampleToken "HS256" "k"))) = none ∧
        validateCalls (AuthMiddleware refLib exampleCfg (4 * Second)
          (requestWith ("Bearer  " ++ exampleToken "HS256" "k"))) =
          [" " ++ exampleToken "HS256" "k"]) :=
  ⟨by decide,
    ⟨⟨exampleToken "HS256" "k", by decide⟩, by decide, by decide, by decide⟩,
    ⟨⟨exampleToken "HS256" "k", by decide⟩, by decide, by decide, by decide⟩⟩

/-- The loop of RoleMiddleware finds the role exactly when it is in the list. -/
theorem hasPermission_iff (role : String) (roles : List String) :
    hasPermission role roles = true ↔ role ∈ roles := by
  induction roles with
  | nil => simp [hasPermission]
  | cons x xs ih =>
    by_cases h : role = x
    · simp [hasPermission, h]
    · simp [hasPermission, h, ih]

/-- C8: for every required-role list and every request, RoleMiddleware calls the next
handler if and only if the context holds claims whose Role equals some element of the
list, and then its only effect is that call, with the request it received (nothing is
written to the response writer); when claims are present and the role is not in the
list it responds with ErrForbidden, status 403, and does not call the next handler. -/
theorem RoleMiddleware_next_iff (requiredRoles : List String) (r : Request) :
    ((∃ r', Effect.serveNext r' ∈ RoleMiddleware requiredRoles r) ↔
      ∃ c, Value r.ctx UserClaimsKey = some (.userClaims c) ∧ c.Role ∈ requiredRoles) ∧
    (∀ c, Value r.ctx UserClaimsKey = some (.userClaims c) → c.Role ∈ requiredRoles →
      RoleMiddleware requiredRoles r = [.serveNext r]) ∧
    (∀ c, Value r.ctx UserClaimsKey = some (.userClaims c) → c.Role ∉ requiredRoles →
      RoleMiddleware requiredRoles r = handleError (.app ErrForbidden) ∧
        statusWritten (RoleMiddleware requiredRoles r) = some 403 ∧
        ∀ r', Effect.serveNext r' ∉ RoleMiddleware requiredRoles r) := by
  have hin : ∀ c, Value r.ctx UserClaimsKey = some (.userClaims c) →
      c.Role ∈ requiredRoles → RoleMiddleware requiredRoles r = [.serveNext r] := by
    intro c hc hm
    simp [RoleMiddleware, hc, (hasPermission_iff _ _).mpr hm]
  have hout : ∀ c, Value r.ctx UserClaimsKey = some (.userClaims c) →
      c.Role ∉ requiredRoles →
      RoleMiddleware requiredRoles r = handleError (.app ErrForbidden) := by
    intro c hc hm
    have : hasPermission c.Role requiredRoles = false := by
      cases hp : hasPermission c.Role requiredRoles with
      | false => rfl
      | true => exact absurd ((hasPermission_iff _ _).mp hp) hm
    simp [RoleMiddleware, hc, this]
  refine ⟨⟨?_, ?_⟩, hin, ?_⟩
  · rintro ⟨r', hr'⟩
    by_contra hn
    have : RoleMiddleware requiredRoles r = handleError (.app ErrForbidden) ∨
        RoleMiddleware requiredRoles r = handleError (.app ErrUnauthorized) := by
      cases hv : Value r.ctx UserClaimsKey with
      | none => right; simp [RoleMiddleware, hv]
      | some v =>
        cases v with
        | other s => right; simp [RoleMiddleware, hv]
        | userClaims c =>
          left
          exact hout c hv (fun hm => hn ⟨c, hv, hm⟩)
    rcases this with h | h <;> rw [h] at hr' <;>
      exact serveNext_not_mem_handleError _ _ hr'
  · rintro ⟨c, hc, hm⟩
    exact ⟨r, by rw [hin c hc hm]; simp⟩
  · intro c hc hm
    rw [hout c hc hm]
    exact ⟨rfl, rfl, serveNext_not_mem_handleError _⟩

/-- Witness for C8: on the request AuthMiddleware passes on for the example claims (role
admin), the route guard for admin calls the next handler with that request, and the
guard for student answers 403. -/
theorem RoleMiddleware_next_iff_witness :
    RoleMiddleware ["admin"] ((requestWith "x").WithContext
        (WithValue [] UserClaimsKey (.userClaims exampleClaims))) =
      [.serveNext ((requestWith "x").WithContext
        (WithValue [] UserClaimsKey (.userClaims exampleClaims)))] ∧
    (RoleMiddleware ["student"] ((requestWith "x").WithContext
        (WithValue [] UserClaimsKey (.userClaims exampleClaims))) =
      handleError (.app ErrForbidden) ∧
     statusWritten (RoleMiddleware ["student"] ((requestWith "x").WithContext
        (WithValue [] UserClaimsKey (.userClaims exampleClaims)))) = some 403 ∧
     ∀ r', Effect.serveNext r' ∉ RoleMiddleware ["student"] ((requestWith "x").WithContext
        (WithValue [] UserClaimsKey (.userClaims exampleClaims)))) :=
  ⟨(RoleMiddleware_next_iff ["admin"] _).2.1 exampleClaims (by decide) (by decide),
   (RoleMiddleware_next_iff ["student"] _).2.2 exampleClaims (by decide) (by decide)⟩

/-- What RoleMiddleware does on a request whose context holds no claims under
UserClaimsKey: it responds with ErrUnauthorized, status 401, does not call the next
handler, and its effects hold no entry for the logger. -/
theorem RoleMiddleware_no_claims (requiredRoles : List String) (r : Request)
    (h : ∀ c, Value r.ctx UserClaimsKey ≠ some (.userClaims c)) :
    RoleMiddleware requiredRoles r = handleError (.app ErrUnauthorized) ∧
      statusWritten (RoleMiddleware requiredRoles r) = some 401 ∧
      errorLog (RoleMiddleware requiredRoles r) = [] ∧
      ∀ r', Effect.serveNext r' ∉ RoleMiddleware requiredRoles r := by
  have he : RoleMiddleware requiredRoles r = handleError (.app ErrUnauthorized) := by
    cases hv : Value r.ctx UserClaimsKey with
    | none => simp [RoleMiddleware, hv]
    | some v =>
      cases v with
      | other s => simp [RoleMiddleware, hv]
      | userClaims c => exact absurd hv (h c)
  rw [he]
  exact ⟨rfl, rfl, rfl, serveNext_not_mem_handleError _⟩

/-- The admin guard on a request with an empty context. -/
theorem RoleMiddleware_no_claims_witness :
    RoleMiddleware ["admin"] (requestWith "x") = handleError (.app ErrUnauthorized) ∧
      statusWritten (RoleMiddleware ["admin"] (requestWith "x")) = some 401 ∧
      errorLog (RoleMiddleware ["admin"] (requestWith "x")) = [] ∧
      ∀ r', Effect.serveNext r' ∉ RoleMiddleware ["admin"] (requestWith "x") :=
  RoleMiddleware_no_claims ["admin"] (requestWith "x")
    (fun c hc => by
      have hn : Value (requestWith "x").ctx UserClaimsKey = none := by decide
      rw [hn] at hc
      cases hc)

/-- C9, the code at the failing input: on a request whose context holds no claims the
admin guard answers 401 but records no log entry at error severity, whereas GetUserClaims,
which makes the same lookup on the same context, does record one. -/
theorem RoleMiddleware_writes_no_log :
    Value (requestWith "x").ctx UserClaimsKey = none ∧
      statusWritten (RoleMiddleware ["admin"] (requestWith "x")) = some 401 ∧
      errorLog (RoleMiddleware ["admin"] (requestWith "x")) = [] ∧
      errorLog (GetUserClaims (requestWith "x").ctx).2 =
        ["Attempted to get claims from context but none were present"] := by
  decide

/-! ## The secret hasher -/

theorem bcrypt.fit_of_length (n : Nat) (xs : List Char) (h : xs.length = n) :
    bcrypt.fit n xs = xs := by
  unfold bcrypt.fit
  exact List.take_left' h

/-- The hash string of a value built with cost 8 from a salt of 22 and a digest of 31
characters. -/
theorem bcrypt.Hash_eq (S H : List Char) (hS : S.length = 22) (hH : H.length = 31) :
    bcrypt.hashed.Hash ⟨H, S, 8, '2', 'a'⟩ =
      '$' :: '2' :: 'a' :: '$' :: '0' :: '8' :: '$' :: (S ++ H) := by
  have h1 : bcrypt.fit bcrypt.encodedSaltSize S = S := bcrypt.fit_of_length _ _ hS
  have h2 : bcrypt.fit bcrypt.encodedHashSize H = H := bcrypt.fit_of_length _ _ hH
  have h3 : bcrypt.costDigits 8 = ['0', '8'] := by decide
  have h4 : ('a' ≠ Char.ofNat 0) := by decide
  simp [bcrypt.hashed.Hash, h1, h2, h3, h4]

/-- Reading such a hash string back gives the value it was built from. -/
theorem bcrypt.newFromHash_Hash (S H : List Char) (hS : S.length = 22)
    (hH : H.length = 31) :
    bcrypt.newFromHash ('$' :: '2' :: 'a' :: '$' :: '0' :: '8' :: '$' :: (S ++ H)) =
      some ⟨H, S, 8, '2', 'a'⟩ := by
  have hlen : ¬ (('$' :: '2' :: 'a' :: '$' :: '0' :: '8' :: '$' :: (S ++ H)).length <
      bcrypt.minHashSize) := by
    simp [hS, hH, bcrypt.minHashSize]
  have h1 : ¬ ('2' > bcrypt.majorVersion) := by decide
  have h2 : ('a' ≠ '$') := by decide
  have h3 : bcrypt.atoi2 '0' '8' = some 8 := by decide
  have h4 : bcrypt.checkCost 8 = true := by decide
  unfold bcrypt.newFromHash
  rw [if_neg hlen]
  simp only [ne_eq, not_true_eq_false, if_false, h1, h2, not_false_eq_true, if_true,
    List.drop_succ_cons, List.drop_zero, h3, h4, Bool.not_true, Bool.false_eq_true]
  have e1 : List.take bcrypt.encodedSaltSize (S ++ H) = S := List.take_left' hS
  have e2 : List.drop bcrypt.encodedSaltSize (S ++ H) = H := List.drop_left' hS
  rw [e1, e2]
  rfl

/-- HashPassword returns dollar, 2a, dollar, 08, dollar, the coded salt and the digest. -/
theorem HashPassword_eq (lib : bcrypt.Lib) (p : String) (salt : Bytes) (h : String)
    (hh : HashPassword lib p salt = some h) :
    ∃ d, lib.bcrypt p 8 (lib.base64Encode salt) = some d ∧
      h = String.mk (bcrypt.hashed.Hash ⟨d.data, (lib.base64Encode salt).data, 8, '2', 'a'⟩) := by
  unfold HashPassword bcrypt.GenerateFromPassword at hh
  split at hh
  · exact absurd hh (by simp)
  · have hc : bcrypt.MinCost + 4 = 8 := rfl
    have hc1 : ¬ (8 < bcrypt.MinCost) := by decide
    have hc2 : bcrypt.checkCost ((8 : Nat) : Int) = true := by decide
    simp only [bcrypt.newFromPassword, hc, hc1, if_false, hc2, Bool.not_true,
      Bool.false_eq_true] at hh
    cases hd : lib.bcrypt p 8 (lib.base64Encode salt) with
    | none => simp [hd] at hh
    | some d =>
      simp only [hd, Option.some.injEq] at hh
      exact ⟨d, rfl, hh.symm⟩

/-- CheckPasswordHash accepts the hash HashPassword returned for the same password. -/
theorem CheckPasswordHash_HashPassword (lib : bcrypt.Lib) (hlib : lib.Lawful) (p : String)
    (salt : Bytes) (hs : bcrypt.isSalt salt) (h : String)
    (hh : HashPassword lib p salt = some h) : CheckPasswordHash lib p h = true := by
  obtain ⟨d, hd, rfl⟩ := HashPassword_eq lib p salt h hh
  have hS : (lib.base64Encode salt).data.length = 22 := hlib.salt_size salt hs
  have hH : d.data.length = 31 := hlib.hash_size p 8 _ d hd
  unfold CheckPasswordHash bcrypt.CompareHashAndPassword
  simp only [bcrypt.Hash_eq _ _ hS hH, bcrypt.newFromHash_Hash _ _ hS hH, hd,
    decide_True]

/-- C10: for every plaintext p on which HashPassword succeeds, two calls made with
different random salts return different hash strings, and CheckPasswordHash of p against
either of them is true. -/
theorem HashPassword_salted (lib : bcrypt.Lib) (hlib : lib.Lawful) (p : String)
    (salt₁ salt₂ : Bytes) (hs₁ : bcrypt.isSalt salt₁) (hs₂ : bcrypt.isSalt salt₂)
    (hne : salt₁ ≠ salt₂) (h₁ h₂ : String)
    (hh₁ : HashPassword lib p salt₁ = some h₁) (hh₂ : HashPassword lib p salt₂ = some h₂) :
    h₁ ≠ h₂ ∧ CheckPasswordHash lib p h₁ = true ∧ CheckPasswordHash lib p h₂ = true := by
  refine ⟨?_, CheckPasswordHash_HashPassword lib hlib p salt₁ hs₁ h₁ hh₁,
    CheckPasswordHash_HashPassword lib hlib p salt₂ hs₂ h₂ hh₂⟩
  obtain ⟨d₁, hd₁, rfl⟩ := HashPassword_eq lib p salt₁ h₁ hh₁
  obtain ⟨d₂, hd₂, rfl⟩ := HashPassword_eq lib p salt₂ h₂ hh₂
  have hS₁ : (lib.base64Encode salt₁).data.length = 22 := hlib.salt_size salt₁ hs₁
  have hS₂ : (lib.base64Encode salt₂).data.length = 22 := hlib.salt_size salt₂ hs₂
  have hH₁ : d₁.data.length = 31 := hlib.hash_size p 8 _ d₁ hd₁
  have hH₂ : d₂.data.length = 31 := hlib.hash_size p 8 _ d₂ hd₂
  intro he
  have he' := congrArg String.data he
  simp only [bcrypt.Hash_eq _ _ hS₁ hH₁, bcrypt.Hash_eq _ _ hS₂ hH₂, List.cons.injEq,
    true_and] at he'
  have hsalt : (lib.base64Encode salt₁).data = (lib.base64Encode salt₂).data :=
    List.append_inj_left he' (hS₁.trans hS₂.symm)
  exact hne (hlib.salt_inj salt₁ salt₂ hs₁ hs₂ (String.ext hsalt))

theorem toNat_ofNat_small (n : Nat) (h : n < 55296) : (Char.ofNat n).toNat = n := by
  have hv : n.isValidChar := Or.inl h
  simp only [Char.ofNat, hv, dite_true, Char.ofNatAux, Char.toNat]
  rfl

theorem map_ofNat_inj (s t : List Nat) (hs : ∀ b ∈ s, b < 256) (ht : ∀ b ∈ t, b < 256)
    (h : s.map (fun b => Char.ofNat (256 + b)) = t.map (fun b => Char.ofNat (256 + b))) :
    s = t := by
  induction s generalizing t with
  | nil =>
    cases t with
    | nil => rfl
    | cons y ys => simp at h
  | cons x xs ih =>
    cases t with
    | nil => simp at h
    | cons y ys =>
      simp only [List.map_cons, List.cons.injEq] at h
      have hx : x < 256 := hs x (by simp)
      have hy : y < 256 := ht y (by simp)
      have e := congrArg Char.toNat h.1
      rw [toNat_ofNat_small _ (by omega), toNat_ofNat_small _ (by omega)] at e
      have hxy : x = y := by omega
      rw [hxy, ih ys (fun b hb => hs b (by simp [hb])) (fun b hb => ht b (by simp [hb])) h.2]

/-- The reference bcrypt primitives satisfy the laws. -/
theorem refBcrypt_lawful : refBcrypt.Lawful where
  salt_size := by
    intro s hs
    simp [refBcrypt, String.length, hs.1, bcrypt.maxSaltSize, bcrypt.encodedSaltSize]
  salt_inj := by
    intro s t hs ht h
    have h' := congrArg String.data h
    simp only [refBcrypt, List.append_cancel_right_eq] at h'
    exact map_ofNat_inj s t hs.2 ht.2 h'
  hash_size := by
    intro p c s h hh
    simp only [refBcrypt, Option.some.injEq] at hh
    subst hh
    show (List.take 31 (Nat.toDigits 10 c ++ s.data ++ p.data ++
      List.replicate 31 'x')).length = 31
    rw [List.length_take, List.length_append, List.length_replicate]
    omega

/-- Witness for C10: under the reference primitives the password pw hashed with two
salts that differ in their last byte gives two different hash strings, and both verify
against pw. -/
theorem HashPassword_salted_witness :
    ∃ h₁ h₂, HashPassword refBcrypt "pw" exampleSalt₁ = some h₁ ∧
      HashPassword refBcrypt "pw" exampleSalt₂ = some h₂ ∧
      h₁ ≠ h₂ ∧ CheckPasswordHash refBcrypt "pw" h₁ = true ∧
      CheckPasswordHash refBcrypt "pw" h₂ = true :=
  ⟨_, _, rfl, rfl,
    HashPassword_salted refBcrypt refBcrypt_lawful "pw" exampleSalt₁ exampleSalt₂
      ⟨by decide, by decide⟩ ⟨by decide, by decide⟩ (by decide) _ _ rfl rfl⟩

/-- Every hash string HashPassword returns starts with the version 2a and the cost 08. -/
theorem HashPassword_cost_digits (lib : bcrypt.Lib) (p : String) (salt : Bytes) (h : String)
    (hh : HashPassword lib p salt = some h) : h.data.take 7 = "$2a$08$".data := by
  obtain ⟨d, -, rfl⟩ := HashPassword_eq lib p salt h hh
  have h3 : bcrypt.costDigits 8 = ['0', '8'] := by decide
  have h4 : ('a' ≠ Char.ofNat 0) := by decide
  simp [bcrypt.hashed.Hash, h3, h4]

/-- C11, the code at the failing input: HashPassword passes the cost MinCost + 4, which
is 8 and not the 14 of its comment; the hash string of pw carries the cost digits 08 and
CompareHashAndPassword reads the cost 8 back from it. -/
theorem HashPassword_cost_eight :
    bcrypt.MinCost + 4 = 8 ∧
      HashPassword refBcrypt "pw" exampleSalt₁ =
        bcrypt.GenerateFromPassword refBcrypt "pw" 8 exampleSalt₁ ∧
      HashPassword refBcrypt "pw" exampleSalt₁ ≠
        bcrypt.GenerateFromPassword refBcrypt "pw" 14 exampleSalt₁ ∧
      (HashPassword refBcrypt "pw" exampleSalt₁).map (fun h => h.data.take 7) =
        some "$2a$08$".data ∧
      ((HashPassword refBcrypt "pw" exampleSalt₁).bind
        (fun h => bcrypt.newFromHash h.data)).map (fun p => p.cost) = some 8 := by
  decide

/-! ## The business operations -/

/-- C12: LoginUser returns no response and ErrInvalidCredentials, status 401, without
calling GenerateToken and without starting the publication of a login event, whenever
the repository reports ErrNotFound for the email or CheckPasswordHash of the supplied
password against the stored hash is false; the returned error is the same value in both
cases. -/
theorem LoginUser_invalid_credentials (s : userService) (rt : Runtime) (ctx : GoContext)
    (req : LoginRequest)
    (h : s.repo.GetUserByEmail ctx req.Email = .error (.app ErrNotFound) ∨
      ∃ user, s.repo.GetUserByEmail ctx req.Email = .ok user ∧
        CheckPasswordHash rt.bcrypt req.Password user.Password = false) :
    (s.LoginUser rt ctx req).1 = .error (.app ErrInvalidCredentials) ∧
      tokenCalls (s.LoginUser rt ctx req).2 = [] ∧
      started (s.LoginUser rt ctx req).2 = [] ∧
      (∀ now₁ now₂, runGoroutines s now₁ now₂ (s.LoginUser rt ctx req).2 = []) ∧
      ErrInvalidCredentials.Code = 401 := by
  rcases h with h | ⟨user, hu, hc⟩
  · simp [userService.LoginUser, h, tokenCalls, started, runGoroutines,
      ErrInvalidCredentials]
  · simp [userService.LoginUser, hu, hc, tokenCalls, started, runGoroutines,
      ErrInvalidCredentials]

/-- Witness for C12: over the example pool, a login with an unknown email and a login of
the user on record with a wrong password return the same ErrInvalidCredentials; the
login with the right password succeeds. -/
theorem LoginUser_invalid_credentials_witness :
    ((exampleService goodProducer).LoginUser exampleRuntime Background ⟨"x@y.z", "pw"⟩).1 =
        .error (.app ErrInvalidCredentials) ∧
      ((exampleService goodProducer).LoginUser exampleRuntime Background ⟨"a@b.c", "pz"⟩).1 =
        .error (.app ErrInvalidCredentials) ∧
      tokenCalls
        ((exampleService goodProducer).LoginUser exampleRuntime Background ⟨"a@b.c", "pz"⟩).2
        = [] ∧
      started
        ((exampleService goodProducer).LoginUser exampleRuntime Background ⟨"a@b.c", "pz"⟩).2
        = [] ∧
      ((exampleService goodProducer).LoginUser exampleRuntime Background ⟨"a@b.c", "pw"⟩).1 =
        .ok ⟨exampleToken "HS256" "k", exampleUser.ToResponse⟩ :=
  ⟨(LoginUser_invalid_credentials (exampleService goodProducer) exampleRuntime Background
      ⟨"x@y.z", "pw"⟩ (Or.inl (by decide))).1,
    (LoginUser_invalid_credentials (exampleService goodProducer) exampleRuntime Background
      ⟨"a@b.c", "pz"⟩ (Or.inr ⟨exampleUser, by decide, by decide⟩)).1,
    (LoginUser_invalid_credentials (exampleService goodProducer) exampleRuntime Background
      ⟨"a@b.c", "pz"⟩ (Or.inr ⟨exampleUser, by decide, by decide⟩)).2.1,
    (LoginUser_invalid_credentials (exampleService goodProducer) exampleRuntime Background
      ⟨"a@b.c", "pz"⟩ (Or.inr ⟨exampleUser, by decide, by decide⟩)).2.2.1,
    by decide⟩

/-- RegisterUser never calls GenerateToken. -/
theorem RegisterUser_no_token (s : userService) (rt : Runtime) (ctx : GoContext)
    (req : RegisterRequest) : tokenCalls (s.RegisterUser rt ctx req).2 = [] := by
  unfold userService.RegisterUser
  cases HashPassword rt.bcrypt req.Password rt.salt with
  | none => rfl
  | some hashed =>
    simp only
    cases s.repo.CreateUser ctx ⟨0, req.Name, req.Email, hashed, req.Role, zeroTime, zeroTime⟩ with
    | error e => rfl
    | ok u => rfl

/-- The repository reports ErrEmailExists exactly on a unique violation of the insert. -/
theorem CreateUser_email_exists_iff (db : DB) (ctx : GoContext) (user : User) :
    userRepository.CreateUser db ctx user = .error (.app ErrEmailExists) ↔
      db.insertUser ctx user.Name user.Email user.Password user.Role =
        .error (.PgError "23505") := by
  unfold userRepository.CreateUser
  cases h : db.insertUser ctx user.Name user.Email user.Password user.Role with
  | ok r => simp
  | error e =>
    cases e with
    | ErrNoRows => simp [writeError, ErrEmailExists, ErrInternalServerError]
    | other m => simp [writeError, ErrEmailExists, ErrInternalServerError]
    | PgError code =>
      by_cases hc : code = "23505"
      · simp [writeError, hc]
      · simp [writeError, hc, ErrEmailExists, ErrInternalServerError]

/-- C13: when the repository's CreateUser reports that the email is already on record
(ErrEmailExists, status 409), RegisterUser returns no response and that same error,
calls GenerateToken in no case, and starts no publication of a registration event. -/
theorem RegisterUser_email_exists (s : userService) (rt : Runtime) (ctx : GoContext)
    (req : RegisterRequest) (hashed : String)
    (hh : HashPassword rt.bcrypt req.Password rt.salt = some hashed)
    (hc : s.repo.CreateUser ctx ⟨0, req.Name, req.Email, hashed, req.Role, zeroTime, zeroTime⟩ =
      .error (.app ErrEmailExists)) :
    (s.RegisterUser rt ctx req).1 = .error (.app ErrEmailExists) ∧
      tokenCalls (s.RegisterUser rt ctx req).2 = [] ∧
      started (s.RegisterUser rt ctx req).2 = [] ∧
      (∀ now₁ now₂, runGoroutines s now₁ now₂ (s.RegisterUser rt ctx req).2 = []) ∧
      ErrEmailExists.Code = 409 := by
  simp [userService.RegisterUser, hh, hc, tokenCalls, started, runGoroutines, ErrEmailExists]

/-- Witness for C13: over the example pool, whose insert answers a unique violation for
the email on record, registering that email returns ErrEmailExists and starts no
goroutine, while registering another email succeeds and starts one. -/
theorem RegisterUser_email_exists_witness :
    exampleDB.insertUser Background "Ann" "a@b.c"
        "$2a$08$āĂăĄąĆćĈĉĊċČčĎďĐAAAAAA8āĂăĄąĆćĈĉĊċČčĎďĐAAAAAApwxxxxxx" "student" =
        .error (.PgError "23505") ∧
      ((exampleService goodProducer).RegisterUser exampleRuntime Background
        ⟨"Ann", "a@b.c", "pw", "student"⟩).1 = .error (.app ErrEmailExists) ∧
      started ((exampleService goodProducer).RegisterUser exampleRuntime Background
        ⟨"Ann", "a@b.c", "pw", "student"⟩).2 = [] ∧
      started ((exampleService goodProducer).RegisterUser exampleRuntime Background
        ⟨"Bob", "b@b.c", "pw", "student"⟩).2 =
        [(.PublishRegisterEvent 8 "b@b.c" "Bob" "student", "user_registered", 8)] :=
  ⟨by decide,
    (RegisterUser_email_exists (exampleService goodProducer) exampleRuntime Background
      ⟨"Ann", "a@b.c", "pw", "student"⟩
      "$2a$08$āĂăĄąĆćĈĉĊċČčĎďĐAAAAAA8āĂăĄąĆćĈĉĊċČčĎďĐAAAAAApwxxxxxx"
      (by decide) (by decide)).1,
    (RegisterUser_email_exists (exampleService goodProducer) exampleRuntime Background
      ⟨"Ann", "a@b.c", "pw", "student"⟩
      "$2a$08$āĂăĄąĆćĈĉĊċČčĎďĐAAAAAA8āĂăĄąĆćĈĉĊċČčĎďĐAAAAAApwxxxxxx"
      (by decide) (by decide)).2.2.1,
    by decide⟩

/-- C14: for every error value, SendError writes the status appErr.Code and the message
appErr.Message when the error is an application error, and otherwise writes status 500
with the fixed message An unexpected error occurred; the response to an unrecognised
error does not depend on the error's text, so two different unrecognised errors produce
identical responses. -/
theorem SendError_response (StatusText : Nat → String) :
    (∀ appErr : AppError, SendError StatusText (.app appErr) =
      [.setHeader "Content-Type" "application/json", .writeHeader appErr.Code,
        .encode ⟨false, none, StatusText appErr.Code, appErr.Message⟩]) ∧
    (∀ msg : String, SendError StatusText (.other msg) =
      [.setHeader "Content-Type" "application/json", .writeHeader 500,
        .encode ⟨false, none, StatusText 500, "An unexpected error occurred"⟩]) ∧
    (∀ msg₁ msg₂ : String,
      SendError StatusText (.other msg₁) = SendError StatusText (.other msg₂)) ∧
    ErrInternalServerError = ⟨500, "An unexpected error occurred"⟩ :=
  ⟨fun _ => rfl, fun _ => rfl, fun _ _ => rfl, rfl⟩

/-- C15: for every User u, the response u.ToResponse has ID, Name, Email, Role,
CreatedAt and UpdatedAt equal to u's and does not depend on u.Password: a user that
differs from u only in Password has the same response.  The success responses of the
service are such responses: ListUsers and GetUserByID return the responses of the users
the repository returned, RegisterUser the response of the user the repository created,
LoginUser the response of the user on record beside the token. -/
theorem ToResponse_omits_password (u : User) :
    (u.ToResponse.ID = u.ID ∧ u.ToResponse.Name = u.Name ∧ u.ToResponse.Email = u.Email ∧
      u.ToResponse.Role = u.Role ∧ u.ToResponse.CreatedAt = u.CreatedAt ∧
      u.ToResponse.UpdatedAt = u.UpdatedAt) ∧
    (∀ password : String,
      (⟨u.ID, u.Name, u.Email, password, u.Role, u.CreatedAt, u.UpdatedAt⟩ : User).ToResponse =
        u.ToResponse) ∧
    u.ToResponsePtr = u.ToResponse ∧
    (∀ (s : userService) (ctx : GoContext) (limit offset : Int) (users : List User)
      (totalCount : Int), s.repo.ListUsers ctx limit offset = .ok (users, totalCount) →
      (s.ListUsers ctx limit offset).1 = .ok (users.map User.ToResponse, totalCount)) ∧
    (∀ (s : userService) (ctx : GoContext) (id : Int),
      s.repo.GetUserByID ctx id = .ok u → (s.GetUserByID ctx id).1 = .ok u.ToResponse) ∧
    (∀ (s : userService) (rt : Runtime) (ctx : GoContext) (req : RegisterRequest)
      (resp : UserResponse), (s.RegisterUser rt ctx req).1 = .ok resp →
      ∃ hashed created, HashPassword rt.bcrypt req.Password rt.salt = some hashed ∧
        s.repo.CreateUser ctx ⟨0, req.Name, req.Email, hashed, req.Role, zeroTime, zeroTime⟩ =
          .ok created ∧ resp = created.ToResponse) ∧
    (∀ (s : userService) (rt : Runtime) (ctx : GoContext) (req : LoginRequest)
      (resp : LoginResponse), (s.LoginUser rt ctx req).1 = .ok resp →
      ∃ user, s.repo.GetUserByEmail ctx req.Email = .ok user ∧
        resp.User = user.ToResponse ∧
        GenerateToken rt.jwt s.cfg rt.now₁ rt.now₂ user.ID user.Email user.Role =
          .ok resp.Token) := by
  refine ⟨⟨rfl, rfl, rfl, rfl, rfl, rfl⟩, fun _ => rfl, rfl, ?_, ?_, ?_, ?_⟩
  · intro s ctx limit offset users totalCount h
    simp [userService.ListUsers, h]
  · intro s ctx id h
    simp [userService.GetUserByID, h, User.ToResponsePtr]
  · intro s rt ctx req resp h
    unfold userService.RegisterUser at h
    cases hh : HashPassword rt.bcrypt req.Password rt.salt with
    | none => simp [hh] at h
    | some hashed =>
      simp only [hh] at h
      cases hc : s.repo.CreateUser ctx
          ⟨0, req.Name, req.Email, hashed, req.Role, zeroTime, zeroTime⟩ with
      | error e => simp [hc] at h
      | ok created =>
        simp only [hc, Except.ok.injEq] at h
        exact ⟨hashed, created, rfl, hc, h.symm⟩
  · intro s rt ctx req resp h
    unfold userService.LoginUser at h
    cases hu : s.repo.GetUserByEmail ctx req.Email with
    | error e =>
      simp only [hu] at h
      split at h <;> simp at h
    | ok user =>
      simp only [hu] at h
      split at h
      · simp at h
      · cases hg : GenerateToken rt.jwt s.cfg rt.now₁ rt.now₂ user.ID user.Email user.Role with
        | error e => simp [hg] at h
        | ok token =>
          simp only [hg, Except.ok.injEq] at h
          subst h
          exact ⟨user, rfl, rfl, hg⟩

/-- Witness for C15: the user on record and the same user with another password have the
same response; the listing, the registration and the login over the example pool return
responses of that shape. -/
theorem ToResponse_omits_password_witness :
    (⟨7, "Ann", "a@b.c", "secret", "admin", 3 * Second, 3 * Second⟩ : User).ToResponse =
        exampleUser.ToResponse ∧
      ((exampleService goodProducer).ListUsers Background 10 0).1 =
        .ok ([⟨7, "Ann", "a@b.c", "admin", 3 * Second, 3 * Second⟩], 1) ∧
      ((exampleService goodProducer).GetUserByID Background 7).1 =
        .ok exampleUser.ToResponse ∧
      (∃ hashed created, HashPassword exampleRuntime.bcrypt "pw" exampleRuntime.salt =
          some hashed ∧
        (exampleService goodProducer).repo.CreateUser Background
          ⟨0, "Bob", "b@b.c", hashed, "student", zeroTime, zeroTime⟩ = .ok created ∧
        (⟨8, "Bob", "b@b.c", "student", 4 * Second, 4 * Second⟩ : UserResponse) =
          created.ToResponse) ∧
      (∃ user, (exampleService goodProducer).repo.GetUserByEmail Background "a@b.c" =
          .ok user ∧
        exampleUser.ToResponse = user.ToResponse ∧
        GenerateToken exampleRuntime.jwt exampleCfg exampleRuntime.now₁ exampleRuntime.now₂
          user.ID user.Email user.Role = .ok (exampleToken "HS256" "k")) :=
  ⟨(ToResponse_omits_password exampleUser).2.1 "secret",
    (ToResponse_omits_password exampleUser).2.2.2.1 (exampleService goodProducer)
      Background 10 0 [⟨7, "Ann", "a@b.c", "", "admin", 3 * Second, 3 * Second⟩] 1
      (by decide),
    (ToResponse_omits_password exampleUser).2.2.2.2.1 (exampleService goodProducer)
      Background 7 (by decide),
    (ToResponse_omits_password exampleUser).2.2.2.2.2.1 (exampleService goodProducer)
      exampleRuntime Background ⟨"Bob", "b@b.c", "pw", "student"⟩
      ⟨8, "Bob", "b@b.c", "student", 4 * Second, 4 * Second⟩ (by decide),
    (ToResponse_omits_password exampleUser).2.2.2.2.2.2 (exampleService goodProducer)
      exampleRuntime Background ⟨"a@b.c", "pw"⟩
      ⟨exampleToken "HS256" "k", exampleUser.ToResponse⟩ (by decide)⟩

/-! ## The event emitter -/

theorem writes_append (a b : List SvcEffect) : writes (a ++ b) = writes a ++ writes b := by
  induction a with
  | nil => rfl
  | cons x xs ih => cases x <;> simp [writes, ih]

/-- The goroutine of publishAsync hands one message to the writer, on the background
context, and then writes one log entry: an error entry when the writer failed, an info
entry otherwise. -/
theorem publishAsyncBody_eq (s : userService) (f : EventFunc) (name : String) (id : Int)
    (now₁ now₂ : Time) :
    ∃ m, (f.call s.kafka Background now₁ now₂).1 = s.kafka.writer Background m ∧
      publishAsyncBody s f name id now₁ now₂ =
        [.writeMessages Background m,
          match s.kafka.writer Background m with
          | some err => .logError "Failed to publish Kafka event" err name id
          | none => .logInfo "Successfully published Kafka event" name id] := by
  cases f with
  | PublishRegisterEvent userID email nm role =>
    refine ⟨⟨"user-auth-events", email,
      (⟨"user_register", userID, email, nm, role, now₁, "", ""⟩ : AuthEvent).Marshal, now₂⟩,
      rfl, ?_⟩
    simp only [publishAsyncBody, EventFunc.call, KafkaProducer.PublishRegisterEvent,
      KafkaProducer.PublishMessage]
    cases s.kafka.writer Background _ <;> rfl
  | PublishLoginEvent userID email nm role =>
    refine ⟨⟨"user-auth-events", email,
      (⟨"user_login", userID, email, nm, role, now₁, "", ""⟩ : AuthEvent).Marshal, now₂⟩,
      rfl, ?_⟩
    simp only [publishAsyncBody, EventFunc.call, KafkaProducer.PublishLoginEvent,
      KafkaProducer.PublishMessage]
    cases s.kafka.writer Background _ <;> rfl
  | PublishUpdateEvent userID email nm role =>
    refine ⟨⟨"user-auth-events", email,
      (⟨"user_update", userID, email, nm, role, now₁, "", ""⟩ : AuthEvent).Marshal, now₂⟩,
      rfl, ?_⟩
    simp only [publishAsyncBody, EventFunc.call, KafkaProducer.PublishUpdateEvent,
      KafkaProducer.PublishMessage]
    cases s.kafka.writer Background _ <;> rfl

theorem writes_publishAsyncBody (s : userService) (f : EventFunc) (name : String) (id : Int)
    (now₁ now₂ : Time) :
    ∃ m, writes (publishAsyncBody s f name id now₁ now₂) = [(Background, m)] := by
  obtain ⟨m, -, h⟩ := publishAsyncBody_eq s f name id now₁ now₂
  refine ⟨m, ?_⟩
  rw [h]
  cases s.kafka.writer Background m <;> rfl

/-- C16: the value and error returned by RegisterUser, LoginUser, UpdateProfile and
UpdateUser, and everything these methods do themselves, are the same whatever the Kafka
producer answers; the goroutine that publishes calls the writer exactly once (no retry),
and when that call fails it only writes one entry to the log at error severity. -/
theorem publish_failure_absorbed (repo : UserRepository) (cfg : Config)
    (k₁ k₂ : KafkaProducer) (rt : Runtime) (ctx : GoContext) :
    (∀ req, userService.RegisterUser ⟨repo, cfg, k₁⟩ rt ctx req =
      userService.RegisterUser ⟨repo, cfg, k₂⟩ rt ctx req) ∧
    (∀ req, userService.LoginUser ⟨repo, cfg, k₁⟩ rt ctx req =
      userService.LoginUser ⟨repo, cfg, k₂⟩ rt ctx req) ∧
    (∀ id req, userService.UpdateProfile ⟨repo, cfg, k₁⟩ ctx id req =
      userService.UpdateProfile ⟨repo, cfg, k₂⟩ ctx id req) ∧
    (∀ id req, userService.UpdateUser ⟨repo, cfg, k₁⟩ ctx id req =
      userService.UpdateUser ⟨repo, cfg, k₂⟩ ctx id req) ∧
    (∀ (s : userService) (f : EventFunc) (name : String) (id : Int) (now₁ now₂ : Time),
      (writes (publishAsyncBody s f name id now₁ now₂)).length = 1) ∧
    (∀ (s : userService) (f : EventFunc) (name : String) (id : Int) (now₁ now₂ : Time)
      (err : GoError), (f.call s.kafka Background now₁ now₂).1 = some err →
      ∃ m, publishAsyncBody s f name id now₁ now₂ =
        [.writeMessages Background m,
          .logError "Failed to publish Kafka event" err name id]) := by
  refine ⟨fun _ => rfl, fun _ => rfl, fun _ _ => rfl, fun _ _ => rfl, ?_, ?_⟩
  · intro s f name id now₁ now₂
    obtain ⟨m, h⟩ := writes_publishAsyncBody s f name id now₁ now₂
    rw [h]
    rfl
  · intro s f name id now₁ now₂ err herr
    obtain ⟨m, hw, h⟩ := publishAsyncBody_eq s f name id now₁ now₂
    rw [hw] at herr
    refine ⟨m, ?_⟩
    rw [h, herr]

/-- Witness for C16: over the example pool the registration of Bob returns the same
response with a producer that accepts and with one that fails; with the failing one the
goroutine hands one message to the writer and logs the failure. -/
theorem publish_failure_absorbed_witness :
    ((exampleService goodProducer).RegisterUser exampleRuntime Background
        ⟨"Bob", "b@b.c", "pw", "student"⟩).1 =
      .ok ⟨8, "Bob", "b@b.c", "student", 4 * Second, 4 * Second⟩ ∧
    (exampleService goodProducer).RegisterUser exampleRuntime Background
        ⟨"Bob", "b@b.c", "pw", "student"⟩ =
      (exampleService badProducer).RegisterUser exampleRuntime Background
        ⟨"Bob", "b@b.c", "pw", "student"⟩ ∧
    (∃ m, publishAsyncBody (exampleService badProducer)
        (.PublishRegisterEvent 8 "b@b.c" "Bob" "student") "user_registered" 8 10 11 =
      [.writeMessages Background m,
        .logError "Failed to publish Kafka event" (.other "broker unreachable")
          "user_registered" 8]) :=
  ⟨by decide,
    (publish_failure_absorbed (NewUserRepository exampleDB) exampleCfg goodProducer
      badProducer exampleRuntime Background).1 ⟨"Bob", "b@b.c", "pw", "student"⟩,
    (publish_failure_absorbed (NewUserRepository exampleDB) exampleCfg goodProducer
      badProducer exampleRuntime Background).2.2.2.2.2 (exampleService badProducer)
      (.PublishRegisterEvent 8 "b@b.c" "Bob" "student") "user_registered" 8 10 11
      (.other "broker unreachable") rfl⟩

theorem writes_runGoroutines (s : userService) (now₁ now₂ : Time) (trace : List SvcEffect)
    (c : GoContext) (m : Message)
    (h : (c, m) ∈ writes (runGoroutines s now₁ now₂ trace)) : c = Background := by
  induction trace with
  | nil => simp [runGoroutines, writes] at h
  | cons x xs ih =>
    cases x with
    | go f name id =>
      simp only [runGoroutines, writes_append, List.mem_append] at h
      rcases h with h | h
      · obtain ⟨m', hm'⟩ := writes_publishAsyncBody s f name id now₁ now₂
        rw [hm'] at h
        simp only [List.mem_singleton, Prod.mk.injEq] at h
        exact h.1
      · exact ih h
    | _ => exact ih (by simpa [runGoroutines] using h)

/-- C17: the goroutine of publishAsync invokes the event function with the background
context: every message handed to the writer by a goroutine that RegisterUser, LoginUser,
UpdateProfile or UpdateUser started goes with context.Background, whatever the request
context was; two runs that differ only in the request context, the repository answering
both alike, make their goroutines do the same. -/
theorem publishAsync_background_context (s : userService) (rt : Runtime)
    (now₁ now₂ : Time) :
    (∀ f name id c m, (c, m) ∈ writes (publishAsyncBody s f name id now₁ now₂) →
      c = Background) ∧
    (∀ trace c m, (c, m) ∈ writes (runGoroutines s now₁ now₂ trace) → c = Background) ∧
    (∀ ctx₁ ctx₂ req, (∀ u, s.repo.CreateUser ctx₁ u = s.repo.CreateUser ctx₂ u) →
      runGoroutines s now₁ now₂ (s.RegisterUser rt ctx₁ req).2 =
        runGoroutines s now₁ now₂ (s.RegisterUser rt ctx₂ req).2) ∧
    (∀ ctx₁ ctx₂ req,
      (∀ e, s.repo.GetUserByEmail ctx₁ e = s.repo.GetUserByEmail ctx₂ e) →
      runGoroutines s now₁ now₂ (s.LoginUser rt ctx₁ req).2 =
        runGoroutines s now₁ now₂ (s.LoginUser rt ctx₂ req).2) ∧
    (∀ ctx₁ ctx₂ id req req', (∀ i, s.repo.GetUserByID ctx₁ i = s.repo.GetUserByID ctx₂ i) →
      (∀ u, s.repo.UpdateUser ctx₁ u = s.repo.UpdateUser ctx₂ u) →
      runGoroutines s now₁ now₂ (s.UpdateProfile ctx₁ id req).2 =
          runGoroutines s now₁ now₂ (s.UpdateProfile ctx₂ id req).2 ∧
        runGoroutines s now₁ now₂ (s.UpdateUser ctx₁ id req').2 =
          runGoroutines s now₁ now₂ (s.UpdateUser ctx₂ id req').2) := by
  refine ⟨?_, writes_runGoroutines s now₁ now₂, ?_, ?_, ?_⟩
  · intro f name id c m h
    obtain ⟨m', hm'⟩ := writes_publishAsyncBody s f name id now₁ now₂
    rw [hm'] at h
    simp only [List.mem_singleton, Prod.mk.injEq] at h
    exact h.1
  · intro ctx₁ ctx₂ req hrepo
    unfold userService.RegisterUser
    cases HashPassword rt.bcrypt req.Password rt.salt with
    | none => rfl
    | some hashed =>
      simp only [hrepo]
      cases s.repo.CreateUser ctx₂ ⟨0, req.Name, req.Email, hashed, req.Role, zeroTime, zeroTime⟩ with
      | error e => rfl
      | ok u => rfl
  · intro ctx₁ ctx₂ req hrepo
    unfold userService.LoginUser
    simp only [hrepo]
    cases s.repo.GetUserByEmail ctx₂ req.Email with
    | error e =>
      simp only
      split <;> rfl
    | ok user =>
      simp only
      split
      · rfl
      · cases GenerateToken rt.jwt s.cfg rt.now₁ rt.now₂ user.ID user.Email user.Role with
        | error e => rfl
        | ok token => rfl
  · intro ctx₁ ctx₂ id req req' hget hupd
    constructor
    · unfold userService.UpdateProfile
      simp only [hget]
      cases s.repo.GetUserByID ctx₂ id with
      | error e => rfl
      | ok user =>
        simp only [hupd]
        cases s.repo.UpdateUser ctx₂ _ with
        | error e => rfl
        | ok u => rfl
    · unfold userService.UpdateUser
      simp only [hget]
      cases s.repo.GetUserByID ctx₂ id with
      | error e => rfl
      | ok user =>
        simp only [hupd]
        cases s.repo.UpdateUser ctx₂ _ with
        | error e => rfl
        | ok u => rfl

/-- Witness for C17: the registration of Bob under a cancelled request context and under
a live one start goroutines that do the same, and the one message goes to the writer with
the background context, not the cancelled one. -/
theorem publishAsync_background_context_witness :
    cancelledContext ≠ Background ∧
      runGoroutines (exampleService goodProducer) 10 11
          ((exampleService goodProducer).RegisterUser exampleRuntime cancelledContext
            ⟨"Bob", "b@b.c", "pw", "student"⟩).2 =
        runGoroutines (exampleService goodProducer) 10 11
          ((exampleService goodProducer).RegisterUser exampleRuntime Background
            ⟨"Bob", "b@b.c", "pw", "student"⟩).2 ∧
      (writes (runGoroutines (exampleService goodProducer) 10 11
          ((exampleService goodProducer).RegisterUser exampleRuntime cancelledContext
            ⟨"Bob", "b@b.c", "pw", "student"⟩).2)).map Prod.fst = [Background] :=
  ⟨by decide,
    (publishAsync_background_context (exampleService goodProducer) exampleRuntime 10 11).2.2.1
      cancelledContext Background ⟨"Bob", "b@b.c", "pw", "student"⟩ (fun _ => rfl),
    by decide⟩

/-- C18: for every user id, email, name and role, PublishLoginEvent, PublishRegisterEvent
and PublishUpdateEvent each hand one message to the writer, on the topic
user-auth-events (the value of TopicUserEvents), with the email as key and as value the
JSON object with event_type user_login, user_register, user_update respectively, user_id,
email, name and role equal to the arguments, and the timestamp; the members ip_address
and user_agent are in the object exactly when they are not empty, so they are absent
here; the error returned is the writer's. -/
theorem Publish_event_message (p : KafkaProducer) (ctx : GoContext) (userID : Int)
    (email name role : String) (now₁ now₂ : Time) :
    p.PublishLoginEvent ctx userID email name role now₁ now₂ =
      (p.writer ctx ⟨TopicUserEvents, email,
          [("event_type", .str "user_login"), ("user_id", .num userID),
            ("email", .str email), ("name", .str name), ("role", .str role),
            ("timestamp", .time now₁)], now₂⟩,
        [.writeMessages ctx ⟨TopicUserEvents, email,
          [("event_type", .str "user_login"), ("user_id", .num userID),
            ("email", .str email), ("name", .str name), ("role", .str role),
            ("timestamp", .time now₁)], now₂⟩]) ∧
    p.PublishRegisterEvent ctx userID email name role now₁ now₂ =
      (p.writer ctx ⟨TopicUserEvents, email,
          [("event_type", .str "user_register"), ("user_id", .num userID),
            ("email", .str email), ("name", .str name), ("role", .str role),
            ("timestamp", .time now₁)], now₂⟩,
        [.writeMessages ctx ⟨TopicUserEvents, email,
          [("event_type", .str "user_register"), ("user_id", .num userID),
            ("email", .str email), ("name", .str name), ("role", .str role),
            ("timestamp", .time now₁)], now₂⟩]) ∧
    p.PublishUpdateEvent ctx userID email name role now₁ now₂ =
      (p.writer ctx ⟨TopicUserEvents, email,
          [("event_type", .str "user_update"), ("user_id", .num userID),
            ("email", .str email), ("name", .str name), ("role", .str role),
            ("timestamp", .time now₁)], now₂⟩,
        [.writeMessages ctx ⟨TopicUserEvents, email,
          [("event_type", .str "user_update"), ("user_id", .num userID),
            ("email", .str email), ("name", .str name), ("role", .str role),
            ("timestamp", .time now₁)], now₂⟩]) ∧
    TopicUserEvents = "user-auth-events" ∧
    (∀ e : AuthEvent, ("ip_address" ∈ e.Marshal.map Prod.fst ↔ e.IPAddress ≠ "") ∧
      ("user_agent" ∈ e.Marshal.map Prod.fst ↔ e.UserAgent ≠ "")) := by
  refine ⟨rfl, rfl, rfl, rfl, ?_⟩
  intro e
  unfold AuthEvent.Marshal
  constructor
  · by_cases h1 : e.IPAddress = "" <;> by_cases h2 : e.UserAgent = "" <;> simp [h1, h2]
  · by_cases h1 : e.IPAddress = "" <;> by_cases h2 : e.UserAgent = "" <;> simp [h1, h2]

/-! ## The lifecycle coordinator -/

/-- C19: on every run of main that reaches the signal wait (the database and the broker
answered), what main does after the signal is, in this order: the log entry, the
server's Shutdown bounded by a context of 5 seconds, its log entry, the release of that
context, the close of the Kafka consumer reader and its log entry, the close of the
Kafka producer, then the close of the pool, the release of the signal context and the
flush of the logger; the list is the same whether Shutdown or a close fails, only the log
entries differ. -/
theorem main_shutdown_order (o : Outcomes) (hdb : o.initDB = none)
    (htopics : o.createTopics = none) :
    after .waitSignal (main o) =
      [.logInfo "Server shutting down...",
        .withTimeout (5 * Second),
        .serverShutdown (5 * Second),
        (match o.shutdown with
          | some _ => .logError "Server shutdown failed: %v"
          | none => .logInfo "Server gracefully stopped"),
        .cancel,
        .consumerReaderClose,
        (match o.consumerClose with
          | some _ => .logError "Failed to gracefully close Kafka consumer reader"
          | none => .logInfo "Kafka consumer reader closed successfully"),
        .producerClose, .dbPoolClose, .stop, .syncLogger] := by
  obtain ⟨initDB, createTopics, shutdown, consumerClose, producerClose⟩ := o
  simp only at hdb htopics
  subst hdb htopics
  simp [main, mainBody, runBody, after]

/-- Witness for C19: in a run where Shutdown, the close of the consumer reader and the
close of the producer all fail, the three steps are still performed, in that order. -/
theorem main_shutdown_order_witness :
    after .waitSignal (main ⟨none, none, some "deadline exceeded", some "closed", some "x"⟩) =
      [.logInfo "Server shutting down...",
        .withTimeout (5 * Second),
        .serverShutdown (5 * Second),
        .logError "Server shutdown failed: %v",
        .cancel,
        .consumerReaderClose,
        .logError "Failed to gracefully close Kafka consumer reader",
        .producerClose, .dbPoolClose, .stop, .syncLogger] :=
  main_shutdown_order ⟨none, none, some "deadline exceeded", some "closed", some "x"⟩ rfl rfl

/-! ## Pagination -/

/-- C20: NewPaginationQuery returns Page equal to the parsed page parameter when it is an
integer greater than 0 and DefaultPage, which is 1, otherwise; Limit equal to the smaller
of the parsed limit parameter and MaxLimit when the parameter is an integer greater than
0, and DefaultLimit, which is 10, otherwise; hence Page is at least 1 and Limit is
between 1 and MaxLimit, which is 100. -/
theorem NewPaginationQuery_page_limit (query : List (String × String)) :
    (∀ n, Atoi (queryGet query "page") = some n → 0 < n →
      (NewPaginationQuery query).Page = n) ∧
    ((∀ n, Atoi (queryGet query "page") = some n → n ≤ 0) →
      (NewPaginationQuery query).Page = DefaultPage) ∧
    (∀ n, Atoi (queryGet query "limit") = some n → 0 < n →
      (NewPaginationQuery query).Limit = min n MaxLimit) ∧
    ((∀ n, Atoi (queryGet query "limit") = some n → n ≤ 0) →
      (NewPaginationQuery query).Limit = DefaultLimit) ∧
    1 ≤ (NewPaginationQuery query).Page ∧
    1 ≤ (NewPaginationQuery query).Limit ∧
    (NewPaginationQuery query).Limit ≤ MaxLimit ∧
    DefaultPage = 1 ∧ DefaultLimit = 10 ∧ MaxLimit = 100 := by
  refine ⟨?_, ?_, ?_, ?_, ?_, ?_, ?_, rfl, rfl, rfl⟩
  · intro n hn hpos
    have : ¬ n ≤ 0 := not_le.mpr hpos
    simp [NewPaginationQuery, hn, this]
  · intro h
    cases hp : Atoi (queryGet query "page") with
    | none => simp [NewPaginationQuery, hp]
    | some n => simp [NewPaginationQuery, hp, h n hp]
  · intro n hn hpos
    have h0 : ¬ n ≤ 0 := not_le.mpr hpos
    simp only [NewPaginationQuery, hn, h0, if_false]
    by_cases hm : n > MaxLimit
    · simp only [hm, if_true]
      exact (min_eq_right (le_of_lt hm)).symm
    · simp only [hm, if_false]
      exact (min_eq_left (not_lt.mp hm)).symm
  · intro h
    have hd : ¬ DefaultLimit > MaxLimit := by decide
    cases hp : Atoi (queryGet query "limit") with
    | none => simp [NewPaginationQuery, hp, hd]
    | some n => simp [NewPaginationQuery, hp, h n hp, hd]
  · simp only [NewPaginationQuery]
    cases Atoi (queryGet query "page") with
    | none => decide
    | some n =>
      simp only
      split
      · decide
      · rename_i h
        exact Int.add_one_le_of_lt (not_le.mp h)
  · simp only [NewPaginationQuery]
    have hd : (1 : Int) ≤ DefaultLimit := by decide
    have hm : (1 : Int) ≤ MaxLimit := by decide
    cases Atoi (queryGet query "limit") with
    | none => simp only; split <;> assumption
    | some n =>
      simp only
      split
      · split <;> assumption
      · rename_i h
        split
        · exact hm
        · exact Int.add_one_le_of_lt (not_le.mp h)
  · simp only [NewPaginationQuery]
    have hd : DefaultLimit ≤ MaxLimit := by decide
    cases Atoi (queryGet query "limit") with
    | none =>
      simp only
      split
      · exact le_refl _
      · exact hd
    | some n =>
      simp only
      split
      · split
        · exact le_refl _
        · exact hd
      · split
        · exact le_refl _
        · rename_i h
          exact not_lt.mp h

/-- Witness for C20: page 3 and limit 500 give Page 3 and Limit 100; a page that is not a
number, a page of 0 and a limit beyond the range of int give the defaults. -/
theorem NewPaginationQuery_page_limit_witness :
    (NewPaginationQuery [("page", "3"), ("limit", "500")]).Page = 3 ∧
      (NewPaginationQuery [("page", "3"), ("limit", "500")]).Limit = min 500 MaxLimit ∧
      (NewPaginationQuery [("page", "abc"), ("limit", "7")]).Page = DefaultPage ∧
      (NewPaginationQuery [("page", "0"), ("limit", "99999999999999999999")]).Limit =
        DefaultLimit ∧
      NewPaginationQuery [("page", "0"), ("limit", "99999999999999999999")] = ⟨1, 10, 0⟩ :=
  ⟨(NewPaginationQuery_page_limit [("page", "3"), ("limit", "500")]).1 3
      (by decide) (by decide),
    (NewPaginationQuery_page_limit [("page", "3"), ("limit", "500")]).2.2.1 500
      (by decide) (by decide),
    (NewPaginationQuery_page_limit [("page", "abc"), ("limit", "7")]).2.1
      (fun n hn => by
        have hp : Atoi (queryGet [("page", "abc"), ("limit", "7")] "page") = none := by
          decide
        rw [hp] at hn
        cases hn),
    (NewPaginationQuery_page_limit [("page", "0"), ("limit", "99999999999999999999")]).2.2.2.1
      (fun n hn => by
        have hp : Atoi (queryGet [("page", "0"), ("limit", "99999999999999999999")] "limit") =
            none := by decide
        rw [hp] at hn
        cases hn),
    by decide⟩

theorem wrapInt64_of_range (x : Int) (hlo : -9223372036854775808 ≤ x)
    (hhi : x ≤ 9223372036854775807) : wrapInt64 x = x := by
  unfold wrapInt64
  norm_num
  omega

theorem NewPaginationQuery_one_le_page (query : List (String × String)) :
    1 ≤ (NewPaginationQuery query).Page := by
  simp only [NewPaginationQuery]
  cases Atoi (queryGet query "page") with
  | none => decide
  | some n =>
    simp only
    split
    · decide
    · rename_i h
      exact Int.add_one_le_of_lt (not_le.mp h)

theorem NewPaginationQuery_one_le_limit (query : List (String × String)) :
    1 ≤ (NewPaginationQuery query).Limit := by
  simp only [NewPaginationQuery]
  have hd : (1 : Int) ≤ DefaultLimit := by decide
  have hm : (1 : Int) ≤ MaxLimit := by decide
  cases Atoi (queryGet query "limit") with
  | none => simp only; split <;> assumption
  | some n =>
    simp only
    split
    · split <;> assumption
    · rename_i h
      split
      · exact hm
      · exact Int.add_one_le_of_lt (not_le.mp h)

/-- The offset is the exact product whenever the product fits a 64-bit integer, and then
it is not negative. -/
theorem NewPaginationQuery_offset_exact (query : List (String × String))
    (h : ((NewPaginationQuery query).Page - 1) * (NewPaginationQuery query).Limit ≤
      9223372036854775807) :
    (NewPaginationQuery query).Offset =
        ((NewPaginationQuery query).Page - 1) * (NewPaginationQuery query).Limit ∧
      0 ≤ (NewPaginationQuery query).Offset := by
  have hp := NewPaginationQuery_one_le_page query
  have hl := NewPaginationQuery_one_le_limit query
  have hnn : 0 ≤ ((NewPaginationQuery query).Page - 1) * (NewPaginationQuery query).Limit :=
    mul_nonneg (by linarith) (by linarith)
  have ho : (NewPaginationQuery query).Offset =
      wrapInt64 (((NewPaginationQuery query).Page - 1) * (NewPaginationQuery query).Limit) :=
    rfl
  rw [ho, wrapInt64_of_range _ (by linarith) h]
  exact ⟨rfl, hnn⟩

/-- C21, the code at the failing input: for page 9223372036854775807, the largest value
strconv.Atoi accepts, and limit 100, NewPaginationQuery returns the Offset -200, which is
negative and is not (Page - 1) * Limit, and the listing hands that offset to the
repository. -/
theorem NewPaginationQuery_offset_wraps :
    Atoi "9223372036854775807" = some 9223372036854775807 ∧
      NewPaginationQuery [("page", "9223372036854775807"), ("limit", "100")] =
        ⟨9223372036854775807, 100, -200⟩ ∧
      (NewPaginationQuery [("page", "9223372036854775807"), ("limit", "100")]).Offset < 0 ∧
      (NewPaginationQuery [("page", "9223372036854775807"), ("limit", "100")]).Offset ≠
        ((NewPaginationQuery [("page", "9223372036854775807"), ("limit", "100")]).Page - 1) *
          (NewPaginationQuery [("page", "9223372036854775807"), ("limit", "100")]).Limit ∧
      listCalls ((exampleService goodProducer).ListUsers Background
        (NewPaginationQuery [("page", "9223372036854775807"), ("limit", "100")]).Limit
        (NewPaginationQuery [("page", "9223372036854775807"), ("limit", "100")]).Offset).2 =
        [(100, -200)] := by
  decide

theorem wrapInt64_add_sub_one (t l : Int) (hlo : -9223372036854775808 ≤ t + l - 1)
    (hhi : t + l - 1 ≤ 9223372036854775807) :
    wrapInt64 (wrapInt64 (t + l) - 1) = t + l - 1 := by
  unfold wrapInt64
  norm_num
  omega

/-- C22: for every query with Limit > 0 (a 64-bit integer) and every totalCount ≥ 0 with
totalCount + Limit - 1 inside the int64 range, NewPaginationResponse sets TotalPages to
the ceiling of totalCount / Limit: Limit times TotalPages reaches totalCount, no smaller
number of pages does, and TotalPages is 0 when totalCount is 0; when Limit ≤ 0 it sets
TotalPages to 0; Page, Limit, TotalCount and Data are copied unchanged. -/
theorem NewPaginationResponse_total_pages {α : Type} (data : α) (query : PaginationQuery)
    (totalCount : Int) :
    (0 < query.Limit → 0 ≤ totalCount →
      totalCount + query.Limit - 1 ≤ 9223372036854775807 →
      (NewPaginationResponse data query totalCount).TotalPages =
          (totalCount + query.Limit - 1) / query.Limit ∧
        totalCount ≤ (NewPaginationResponse data query totalCount).TotalPages * query.Limit ∧
        (∀ n : Int, totalCount ≤ n * query.Limit →
          (NewPaginationResponse data query totalCount).TotalPages ≤ n) ∧
        (totalCount = 0 → (NewPaginationResponse data query totalCount).TotalPages = 0)) ∧
    (query.Limit ≤ 0 → (NewPaginationResponse data query totalCount).TotalPages = 0) ∧
    (NewPaginationResponse data query totalCount).Page = query.Page ∧
    (NewPaginationResponse data query totalCount).Limit = query.Limit ∧
    (NewPaginationResponse data query totalCount).TotalCount = totalCount ∧
    (NewPaginationResponse data query totalCount).Data = data := by
  refine ⟨?_, ?_, rfl, rfl, rfl, rfl⟩
  · intro hl ht hr
    have hw := wrapInt64_add_sub_one totalCount query.Limit (by linarith) hr
    have hn : 0 ≤ totalCount + query.Limit - 1 := by linarith
    have hq : (NewPaginationResponse data query totalCount).TotalPages =
        (totalCount + query.Limit - 1) / query.Limit := by
      simp only [NewPaginationResponse, gt_iff_lt, hl, if_true, hw]
      exact Int.tdiv_eq_ediv hn (le_of_lt hl)
    have h1 : (totalCount + query.Limit - 1) / query.Limit * query.Limit ≤
        totalCount + query.Limit - 1 := Int.ediv_mul_le _ (ne_of_gt hl)
    have h2 : totalCount + query.Limit - 1 <
        ((totalCount + query.Limit - 1) / query.Limit + 1) * query.Limit :=
      Int.lt_ediv_add_one_mul_self _ hl
    rw [hq]
    refine ⟨rfl, ?_, ?_, ?_⟩
    · have h3 : ((totalCount + query.Limit - 1) / query.Limit + 1) * query.Limit =
          (totalCount + query.Limit - 1) / query.Limit * query.Limit + query.Limit := by ring
      rw [h3] at h2
      linarith
    · intro n hn'
      have h4 : (totalCount + query.Limit - 1) / query.Limit * query.Limit <
          (n + 1) * query.Limit := by
        have h5 : (n + 1) * query.Limit = n * query.Limit + query.Limit := by ring
        rw [h5]
        linarith
      have h6 : (totalCount + query.Limit - 1) / query.Limit < n + 1 :=
        lt_of_mul_lt_mul_right h4 (le_of_lt hl)
      exact Int.lt_add_one_iff.mp h6
    · intro h0
      subst h0
      have h7 : (0 + query.Limit - 1) / query.Limit < 1 := by
        apply Int.ediv_lt_of_lt_mul hl
        linarith
      have h8 : 0 ≤ (0 + query.Limit - 1) / query.Limit :=
        Int.ediv_nonneg (by linarith) (le_of_lt hl)
      omega
  · intro hl
    have : ¬ query.Limit > 0 := not_lt.mpr hl
    simp [NewPaginationResponse, this]

/-- Witness for C22: 25 users at 10 per page make 3 pages, 20 users 2 pages, no user no
page; a limit of 0 gives 0 pages. -/
theorem NewPaginationResponse_total_pages_witness :
    (NewPaginationResponse [exampleUser.ToResponse] ⟨1, 10, 0⟩ 25).TotalPages =
        (25 + 10 - 1) / 10 ∧
      (NewPaginationResponse [exampleUser.ToResponse] ⟨1, 10, 0⟩ 25).TotalPages = 3 ∧
      (NewPaginationResponse [exampleUser.ToResponse] ⟨1, 10, 0⟩ 20).TotalPages = 2 ∧
      (NewPaginationResponse [exampleUser.ToResponse] ⟨1, 10, 0⟩ 0).TotalPages = 0 ∧
      (NewPaginationResponse [exampleUser.ToResponse] ⟨1, 0, 0⟩ 25).TotalPages = 0 ∧
      NewPaginationResponse [exampleUser.ToResponse] ⟨2, 10, 10⟩ 25 =
        ⟨[exampleUser.ToResponse], 2, 10, 25, 3⟩ :=
  ⟨((NewPaginationResponse_total_pages [exampleUser.ToResponse] ⟨1, 10, 0⟩ 25).1
      (by decide) (by decide) (by decide)).1,
    by decide, by decide,
    ((NewPaginationResponse_total_pages [exampleUser.ToResponse] ⟨1, 10, 0⟩ 0).1
      (by decide) (by decide) (by decide)).2.2.2 rfl,
    (NewPaginationResponse_total_pages [exampleUser.ToResponse] ⟨1, 0, 0⟩ 25).2.1
      (by decide),
    by decide⟩

/-! ## Profile updates -/

/-- C23: for every stored user and every UpdateProfileRequest, the one record
UpdateProfile hands to the repository's UpdateUser has the ID, Role and Password (and the
timestamps) of the stored user; its Name is the request's name when present and the
stored name otherwise, and likewise its Email: a profile update cannot change the role.
The record UpdateUser (admin) hands over differs only in that its Role is the request's
role when the request carries one. -/
theorem UpdateProfile_keeps_role (s : userService) (ctx : GoContext) (id : Int)
    (stored : User) (hstored : s.repo.GetUserByID ctx id = .ok stored) :
    (∀ req : UpdateProfileRequest,
      updateCalls (s.UpdateProfile ctx id req).2 =
          [⟨stored.ID, assignIfPresent req.Name stored.Name,
            assignIfPresent req.Email stored.Email, stored.Password, stored.Role,
            stored.CreatedAt, stored.UpdatedAt⟩] ∧
        ∀ record ∈ updateCalls (s.UpdateProfile ctx id req).2,
          record.ID = stored.ID ∧ record.Role = stored.Role ∧
            record.Password = stored.Password ∧
            record.Name = (match req.Name with | some n => n | none => stored.Name) ∧
            record.Email = (match req.Email with | some e => e | none => stored.Email)) ∧
    (∀ req : UpdateUserRequest,
      updateCalls (s.UpdateUser ctx id req).2 =
          [⟨stored.ID, assignIfPresent req.Name stored.Name,
            assignIfPresent req.Email stored.Email, stored.Password,
            assignIfPresent req.Role stored.Role, stored.CreatedAt, stored.UpdatedAt⟩] ∧
        ∀ record ∈ updateCalls (s.UpdateUser ctx id req).2,
          record.ID = stored.ID ∧ record.Password = stored.Password ∧
            record.Role = (match req.Role with | some r => r | none => stored.Role) ∧
            record.Name = (match req.Name with | some n => n | none => stored.Name) ∧
            record.Email = (match req.Email with | some e => e | none => stored.Email)) := by
  constructor
  · intro req
    have h : updateCalls (s.UpdateProfile ctx id req).2 =
        [⟨stored.ID, assignIfPresent req.Name stored.Name,
          assignIfPresent req.Email stored.Email, stored.Password, stored.Role,
          stored.CreatedAt, stored.UpdatedAt⟩] := by
      unfold userService.UpdateProfile
      simp only [hstored]
      cases s.repo.UpdateUser ctx _ with
      | error e => rfl
      | ok u => rfl
    refine ⟨h, ?_⟩
    intro record hr
    rw [h, List.mem_singleton] at hr
    subst hr
    exact ⟨rfl, rfl, rfl, rfl, rfl⟩
  · intro req
    have h : updateCalls (s.UpdateUser ctx id req).2 =
        [⟨stored.ID, assignIfPresent req.Name stored.Name,
          assignIfPresent req.Email stored.Email, stored.Password,
          assignIfPresent req.Role stored.Role, stored.CreatedAt, stored.UpdatedAt⟩] := by
      unfold userService.UpdateUser
      simp only [hstored]
      cases s.repo.UpdateUser ctx _ with
      | error e => rfl
      | ok u => rfl
    refine ⟨h, ?_⟩
    intro record hr
    rw [h, List.mem_singleton] at hr
    subst hr
    exact ⟨rfl, rfl, rfl, rfl, rfl⟩

/-- Witness for C23: over the example pool, a profile update of the user on record that
carries a new name hands over her record with the new name and her stored email, role
and password; the admin update that carries the role student hands over the role
student. -/
theorem UpdateProfile_keeps_role_witness :
    updateCalls ((exampleService goodProducer).UpdateProfile Background 7
        ⟨some "Anna", none⟩).2 =
      [⟨7, "Anna", "a@b.c", exampleUser.Password, "admin", 3 * Second, 3 * Second⟩] ∧
    updateCalls ((exampleService goodProducer).UpdateUser Background 7
        ⟨none, none, some "student"⟩).2 =
      [⟨7, "Ann", "a@b.c", exampleUser.Password, "student", 3 * Second, 3 * Second⟩] ∧
    updateCalls ((exampleService goodProducer).UpdateUser Background 7
        ⟨some "Anna", none, none⟩).2 =
      [⟨7, "Anna", "a@b.c", exampleUser.Password, "admin", 3 * Second, 3 * Second⟩] :=
  ⟨((UpdateProfile_keeps_role (exampleService goodProducer) Background 7 exampleUser
      (by decide)).1 ⟨some "Anna", none⟩).1,
    ((UpdateProfile_keeps_role (exampleService goodProducer) Background 7 exampleUser
      (by decide)).2 ⟨none, none, some "student"⟩).1,
    ((UpdateProfile_keeps_role (exampleService goodProducer) Background 7 exampleUser
      (by decide)).2 ⟨some "Anna", none, none⟩).1⟩

end StudentPortal
